import Mathlib

/-!
Shallow embedding of `src/app.py` (SquareMiles city-specific multimodal
optimizer).  Python floats are modelled as exact rationals where the program
stores tabular data (mode factors, geocoded coordinates) and as real numbers
where the program computes distances, times, costs and scores.  The external
services (the Nominatim geocoder, the OSRM routing service) and the on-disk
JSON cache are modelled as explicit function parameters and explicit state.
-/

namespace GMIS

/-- A geographic point as a `(lat, lon)` pair of rationals. -/
abbrev Point := ℚ × ℚ

/-- The `Node` dataclass of app.py. -/
structure Node where
  key : String
  name : String
  lat : ℚ
  lon : ℚ
  kind : String
deriving DecidableEq

/-- The nine mode keys of the `MODES` table of app.py. -/
inductive Mode
  | truck
  | elcv
  | small_van
  | cargo_bike
  | e_scooter_trailer
  | autonomous_robot
  | cargo_tram
  | cargo_bus
  | boat
deriving DecidableEq, Fintype

/-- One row of the `MODES` table. -/
structure ModeInfo where
  label : String
  emission_kg_per_km : ℚ
  cost_trans : ℚ
  cost_labour : ℚ
  speed_kph : ℚ
  osrm_profile : Option String
deriving DecidableEq

/-- The `MODES` table of app.py. -/
def MODES : Mode → ModeInfo
  | .truck => { label := "Truck (HGV)", emission_kg_per_km := 0.448, cost_trans := 0.508,
                cost_labour := 0.289190, speed_kph := 23.45, osrm_profile := some "driving" }
  | .elcv => { label := "Electric LCV", emission_kg_per_km := 0.346, cost_trans := 0.070,
               cost_labour := 0.289190, speed_kph := 23.45, osrm_profile := some "driving" }
  | .small_van => { label := "Small Van (ICE)", emission_kg_per_km := 0.210, cost_trans := 0.179,
                    cost_labour := 0.289190, speed_kph := 23.45, osrm_profile := some "driving" }
  | .cargo_bike => { label := "Cargo Bike", emission_kg_per_km := 0.033, cost_trans := 0.004,
                     cost_labour := 0.419688, speed_kph := 16.0, osrm_profile := some "cycling" }
  | .e_scooter_trailer => { label := "E-Scooter + Trailer", emission_kg_per_km := 0.025,
                            cost_trans := 0.005, cost_labour := 0.479643, speed_kph := 14.0,
                            osrm_profile := some "cycling" }
  | .autonomous_robot => { label := "Autonomous Delivery Robot", emission_kg_per_km := 0.010,
                           cost_trans := 0.005, cost_labour := 1.119167, speed_kph := 6.0,
                           osrm_profile := some "walking" }
  | .cargo_tram => { label := "Cargo Tram", emission_kg_per_km := 0.0, cost_trans := 0.808,
                     cost_labour := 0.335750, speed_kph := 20.0, osrm_profile := none }
  | .cargo_bus => { label := "Cargo Bus / Night Bus", emission_kg_per_km := 0.822,
                    cost_trans := 0.366, cost_labour := 0.289190, speed_kph := 23.45,
                    osrm_profile := some "driving" }
  | .boat => { label := "Urban River Barge / Boat", emission_kg_per_km := 0.033,
               cost_trans := 31.718, cost_labour := 0.559583, speed_kph := 12.0,
               osrm_profile := none }

/-- One row of the `MODE_ESG` table.  The `capex_k$` column is omitted: it is
only read by the ROI display, which no verified routine touches. -/
structure EsgInfo where
  fuel_l_per_km : ℚ
  electricity_kwh_per_km : ℚ
  road_space_eq : ℚ
  noise_idx : ℚ
  safety_risk : ℚ
deriving DecidableEq

/-- The `MODE_ESG` table of app.py, kept as an association list because the
code reads it with `MODE_ESG.get(mode, default)`. -/
def MODE_ESG : List (Mode × EsgInfo) :=
  [(.truck, { fuel_l_per_km := 0.30, electricity_kwh_per_km := 0.0, road_space_eq := 3.0,
              noise_idx := 0.84, safety_risk := 0.8 }),
   (.small_van, { fuel_l_per_km := 0.12, electricity_kwh_per_km := 0.0, road_space_eq := 1.6,
                  noise_idx := 0.68, safety_risk := 0.6 }),
   (.elcv, { fuel_l_per_km := 0.0, electricity_kwh_per_km := 0.20, road_space_eq := 1.6,
             noise_idx := 0.68, safety_risk := 0.5 }),
   (.cargo_bike, { fuel_l_per_km := 0.0, electricity_kwh_per_km := 0.05, road_space_eq := 0.4,
                   noise_idx := 0.40, safety_risk := 0.3 }),
   (.e_scooter_trailer, { fuel_l_per_km := 0.0, electricity_kwh_per_km := 0.03,
                          road_space_eq := 0.2, noise_idx := 0.24, safety_risk := 0.25 }),
   (.autonomous_robot, { fuel_l_per_km := 0.0, electricity_kwh_per_km := 0.02,
                         road_space_eq := 0.1, noise_idx := 0.24, safety_risk := 0.2 }),
   (.cargo_tram, { fuel_l_per_km := 0.0, electricity_kwh_per_km := 0.40, road_space_eq := 0.0,
                   noise_idx := 0.72, safety_risk := 0.15 }),
   (.cargo_bus, { fuel_l_per_km := 0.08, electricity_kwh_per_km := 0.0, road_space_eq := 1.8,
                  noise_idx := 0.88, safety_risk := 0.5 }),
   (.boat, { fuel_l_per_km := 0.05, electricity_kwh_per_km := 0.0, road_space_eq := 0.0,
             noise_idx := 0.56, safety_risk := 0.3 })]

/-- The default factor dictionary of `MODE_ESG.get(m, {...})` in
`esg_metrics_for_segments`. -/
def esgDefault : EsgInfo :=
  { fuel_l_per_km := 0.0, electricity_kwh_per_km := 0.0, road_space_eq := 1.0,
    noise_idx := 0.5, safety_risk := 0.5 }

/-- One row of the `CITY_MODE_CAPS` table. -/
structure Caps where
  allowed : List Mode
  notes : String
deriving DecidableEq

/-- The `CITY_MODE_CAPS` table of app.py; dictionary access is modelled with
`List.lookup`, missing keys (a Python `KeyError`) with `none`. -/
def CITY_MODE_CAPS : List (String × Caps) :=
  [("Hamburg, Germany",
    { allowed := [.boat, .cargo_bike, .cargo_bus, .cargo_tram, .elcv, .small_van, .truck],
      notes := "dense waterways & strong bike infra; no robots, no tram freight" }),
   ("Shanghai, China",
    { allowed := [.autonomous_robot, .cargo_bike, .cargo_tram, .e_scooter_trailer, .small_van, .truck],
      notes := "robots pilot zones; extensive waterways; tram corridors exist" }),
   ("Amsterdam, Netherlands",
    { allowed := [.boat, .cargo_bike, .cargo_bus, .cargo_tram, .elcv, .truck],
      notes := "canals & tram; scooters widely piloted; no robots" }),
   ("New York City, USA",
    { allowed := [.autonomous_robot, .cargo_bike, .cargo_bus, .small_van, .truck],
      notes := "clean trucks, cargo bikes; boat feasible; no tram/robots" }),
   ("London, UK",
    { allowed := [.autonomous_robot, .cargo_bike, .cargo_bus, .elcv, .truck],
      notes := "ULEZ; cargo bus at night; scooters allowed in trials; no cargo tram" }),
   ("São Paulo, Brazil",
    { allowed := [.cargo_bus, .small_van, .truck],
      notes := "no urban barges/boats for last-mile; scooters constrained; no robots/tram" }),
   ("Nairobi, Kenya",
    { allowed := [.cargo_bus, .small_van, .truck],
      notes := "no boats/tram/robots; bikes feasible" }),
   ("Mumbai, India",
    { allowed := [.boat, .cargo_bike, .cargo_bus, .small_van, .truck],
      notes := "coastal/creeks allow boat in some corridors; no tram/robots" }),
   ("Singapore, Singapore",
    { allowed := [.boat, .cargo_bike, .cargo_bus, .elcv, .truck],
      notes := "strict PMD rules (no public e-scooters); high compliance; no robots/tram" }),
   ("Istanbul, Turkey",
    { allowed := [.boat, .cargo_bus, .cargo_tram, .truck],
      notes := "tram present; Bosphorus/Golden Horn allow boats; no scooters/robots" })]

/-- `haversine_km` of app.py: great-circle distance in kilometres;
`math.radians x = x * pi / 180`. -/
noncomputable def haversine_km (a b : Point) : ℝ :=
  let lat1 : ℝ := (a.1 : ℝ) * Real.pi / 180
  let lon1 : ℝ := (a.2 : ℝ) * Real.pi / 180
  let lat2 : ℝ := (b.1 : ℝ) * Real.pi / 180
  let lon2 : ℝ := (b.2 : ℝ) * Real.pi / 180
  let dlat := lat2 - lat1
  let dlon := lon2 - lon1
  let h := Real.sin (dlat / 2) ^ 2 + Real.cos lat1 * Real.cos lat2 * Real.sin (dlon / 2) ^ 2
  2 * 6371.0088 * Real.arcsin (Real.sqrt h)

/-- The cached external OSRM service `osrm_distance_and_shape`: for a pair of
points and a profile it yields either a distance (km) with a path geometry, or
`none` (HTTP failure, no routes, malformed JSON). -/
abbrev OsrmFn := Point → Point → String → Option (ℝ × List Point)

/-- `route_with_engine` of app.py. -/
noncomputable def route_with_engine (a b : Point) (mode_key : Mode)
    (modes_dict : Mode → ModeInfo) (engine : String) (osrm : OsrmFn) : ℝ × List Point :=
  match (modes_dict mode_key).osrm_profile with
  | none => (haversine_km a b, [a, b])
  | some profile =>
    if engine = "OSRM (open data)" then
      match osrm a b profile with
      | some r => r
      | none => (haversine_km a b, [a, b])
    else
      (haversine_km a b, [a, b])

/-- `impact_for_leg` of app.py: `(time_h, co2_kg, cost)` of a leg. -/
noncomputable def impact_for_leg (distance_km : ℝ) (mode_key : Mode) : ℝ × ℝ × ℝ :=
  let m := MODES mode_key
  (distance_km / max (m.speed_kph : ℝ) 1e-6,
   (m.emission_kg_per_km : ℝ) * distance_km,
   ((m.cost_trans : ℝ) + (m.cost_labour : ℝ)) * distance_km)

/-- Python `round(x, 3)` (rounding to three decimals; the tie-breaking rule at
exact half-thousandths plays no role in any verified statement). -/
noncomputable def round3 (x : ℝ) : ℝ := ((round (x * 1000) : ℤ) : ℝ) / 1000

/-- One segment dictionary as built by the candidate evaluators; the Python
keys `from` / `to` are rendered as `from_` / `to_`. -/
structure Segment where
  from_ : String
  to_ : String
  mode : Mode
  distance_km : ℝ
  time_h : ℝ
  co2_kg : ℝ
  cost : ℝ
  geometry : List Point

/-- The totals dictionary of a candidate. -/
structure Totals where
  distance_km : ℝ
  time_h : ℝ
  co2_kg : ℝ
  cost : ℝ

/-- `eval_candidate_via_hub` of app.py. -/
noncomputable def eval_candidate_via_hub (origin : Point) (hub : Node) (dest : Point)
    (m1 m2 : Mode) (engine : String) (osrm : OsrmFn) : List Segment × Totals :=
  let r1 := route_with_engine origin (hub.lat, hub.lon) m1 MODES engine osrm
  let i1 := impact_for_leg r1.1 m1
  let s1 : Segment := { from_ := "Start", to_ := hub.name, mode := m1,
                        distance_km := round3 r1.1, time_h := i1.1, co2_kg := i1.2.1,
                        cost := i1.2.2, geometry := r1.2 }
  let r2 := route_with_engine (hub.lat, hub.lon) dest m2 MODES engine osrm
  let i2 := impact_for_leg r2.1 m2
  let s2 : Segment := { from_ := hub.name, to_ := "Destination", mode := m2,
                        distance_km := round3 r2.1, time_h := i2.1, co2_kg := i2.2.1,
                        cost := i2.2.2, geometry := r2.2 }
  ([s1, s2],
   { distance_km := round3 (r1.1 + r2.1), time_h := i1.1 + i2.1,
     co2_kg := i1.2.1 + i2.2.1, cost := i1.2.2 + i2.2.2 })

/-- `eval_candidate_direct` of app.py. -/
noncomputable def eval_candidate_direct (origin dest : Point) (mode_key : Mode)
    (engine : String) (osrm : OsrmFn) : List Segment × Totals :=
  let r := route_with_engine origin dest mode_key MODES engine osrm
  let i := impact_for_leg r.1 mode_key
  let s : Segment := { from_ := "Start", to_ := "Destination", mode := mode_key,
                       distance_km := round3 r.1, time_h := i.1, co2_kg := i.2.1,
                       cost := i.2.2, geometry := r.2 }
  ([s], { distance_km := round3 r.1, time_h := i.1, co2_kg := i.2.1, cost := i.2.2 })

/-- A value of `CITY_GRAPH[city]` as built by `build_city_graph`. -/
structure CityObj where
  city : String
  central_hub : Node
  micro_hubs : List Node
deriving DecidableEq

/-- A candidate dictionary as first appended to `results` in
`search_best_routes`, before the score keys are added. -/
structure CandBase where
  hub : Option Node
  modes : List Mode
  segments : List Segment
  totals : Totals

/-- A candidate dictionary after `search_best_routes` has added the two
`score_norm_*` keys. -/
structure Cand where
  hub : Option Node
  modes : List Mode
  segments : List Segment
  totals : Totals
  score_norm_co2 : ℝ
  score_norm_cost : ℝ

/-- The dictionary returned by `search_best_routes`. -/
structure SearchResult where
  all : List Cand
  min_co2 : Option Cand
  min_cost : Option Cand
  best_combo : Option Cand

/-- Python `min(l, key=f)` over a list: the first element with minimal key,
`none` on the empty list (where Python raises `ValueError`). -/
noncomputable def minBy {α : Type} (f : α → ℝ) : List α → Option α
  | [] => none
  | x :: xs => some (xs.foldl (fun best y => if f y < f best then y else best) x)

/-- Python `min(l)` over a list of numbers; the empty case is unreachable in
the program (Python raises there). -/
noncomputable def listMin : List ℝ → ℝ
  | [] => 0
  | x :: xs => xs.foldl min x

/-- Python `max(l)` over a list of numbers; the empty case is unreachable in
the program (Python raises there). -/
noncomputable def listMax : List ℝ → ℝ
  | [] => 0
  | x :: xs => xs.foldl max x

/-- The local function `norm` of `search_best_routes`. -/
noncomputable def norm (x lo hi : ℝ) : ℝ :=
  if hi = lo then 0.0 else (x - lo) / (hi - lo)

/-- The candidate enumeration loops of `search_best_routes` (the part before
any selection): via a hub it ranges over `[fixed_hub]` or all micro-hubs and
over all ordered pairs of allowed modes; directly it ranges over the allowed
modes. -/
noncomputable def raw_candidates (allowed : List Mode) (city_obj : CityObj)
    (origin dest : Point) (engine : String) (via_hub : Bool) (fixed_hub : Option Node)
    (osrm : OsrmFn) : List CandBase :=
  if via_hub then
    let hubs := match fixed_hub with
      | some h => [h]
      | none => city_obj.micro_hubs
    hubs.flatMap fun hub =>
      allowed.flatMap fun m1 =>
        allowed.map fun m2 =>
          let st := eval_candidate_via_hub origin hub dest m1 m2 engine osrm
          { hub := some hub, modes := [m1, m2], segments := st.1, totals := st.2 }
  else
    allowed.map fun m =>
      let st := eval_candidate_direct origin dest m engine osrm
      { hub := none, modes := [m], segments := st.1, totals := st.2 }

/-- The score assignment of `search_best_routes`:
`r["score_norm_co2"] = norm(...)`, `r["score_norm_cost"] = norm(...)`. -/
noncomputable def scoreCand (cmin cmax kmin kmax : ℝ) (r : CandBase) : Cand :=
  { hub := r.hub, modes := r.modes, segments := r.segments, totals := r.totals,
    score_norm_co2 := norm r.totals.co2_kg cmin cmax,
    score_norm_cost := norm r.totals.cost kmin kmax }

/-- The scoring and selection part of `search_best_routes`.  Python mutates
the candidate dictionaries in place after computing `min_co2` / `min_cost`
over the same (aliased) objects; functionally the score fields are therefore
added to all candidates first and the minima are taken over the scored list,
which selects the same candidates because the score assignment changes no
`totals` value and preserves the list order. -/
noncomputable def score_and_pick (results : List CandBase) : SearchResult :=
  if results.isEmpty then
    { all := [], min_co2 := none, min_cost := none, best_combo := none }
  else
    let co2_vals := results.map fun r => r.totals.co2_kg
    let cost_vals := results.map fun r => r.totals.cost
    let cmin := listMin co2_vals
    let cmax := listMax co2_vals
    let kmin := listMin cost_vals
    let kmax := listMax cost_vals
    let scored := results.map (scoreCand cmin cmax kmin kmax)
    { all := scored,
      min_co2 := minBy (fun r => r.totals.co2_kg) scored,
      min_cost := minBy (fun r => r.totals.cost) scored,
      best_combo := none }

/-- `search_best_routes` of app.py; the `CITY_MODE_CAPS[city_name]` access is
modelled with `List.lookup`, a missing key (Python `KeyError`) with `none`. -/
noncomputable def search_best_routes (city_name : String) (city_obj : CityObj)
    (origin dest : Point) (engine : String) (via_hub : Bool) (fixed_hub : Option Node)
    (osrm : OsrmFn) : Option SearchResult :=
  match CITY_MODE_CAPS.lookup city_name with
  | none => none
  | some caps =>
    some (score_and_pick (raw_candidates caps.allowed city_obj origin dest engine via_hub fixed_hub osrm))

/-- `pick_best_combo` of app.py. -/
noncomputable def pick_best_combo (results_dict : SearchResult) (weight_cost : ℝ) :
    Option Cand :=
  if results_dict.all.isEmpty then none
  else
    let w := max 0 (min 1 weight_cost)
    minBy (fun r => w * r.score_norm_cost + (1 - w) * r.score_norm_co2) results_dict.all

/-- `aggregate_mode_km`'s dictionary update
`agg[mode] = agg.get(mode, 0.0) + km` on an insertion-ordered dictionary. -/
noncomputable def dictAdd : List (Mode × ℝ) → Mode → ℝ → List (Mode × ℝ)
  | [], m, d => [(m, d)]
  | (k, v) :: rest, m, d =>
    if k = m then (k, v + d) :: rest else (k, v) :: dictAdd rest m d

/-- `aggregate_mode_km` of app.py. -/
noncomputable def aggregate_mode_km (segments : List Segment) : List (Mode × ℝ) :=
  segments.foldl (fun agg s => dictAdd agg s.mode s.distance_km) []

/-- The ESG metrics dictionary returned by `esg_metrics_for_segments`. -/
structure EsgMetrics where
  fuel_l : ℝ
  kwh : ℝ
  road_space_eq_km : ℝ
  noise_index_km : ℝ
  safety_risk_km : ℝ

/-- `esg_metrics_for_segments` of app.py: the accumulation loop over
`km_by_mode.items()` is rendered as a sum over the association list, with
`MODE_ESG.get(m, default)` rendered as `lookup` with a default. -/
noncomputable def esg_metrics_for_segments (segments : List Segment) : EsgMetrics :=
  let km_by_mode := aggregate_mode_km segments
  { fuel_l := (km_by_mode.map fun p =>
      (((MODE_ESG.lookup p.1).getD esgDefault).fuel_l_per_km : ℝ) * p.2).sum,
    kwh := (km_by_mode.map fun p =>
      (((MODE_ESG.lookup p.1).getD esgDefault).electricity_kwh_per_km : ℝ) * p.2).sum,
    road_space_eq_km := (km_by_mode.map fun p =>
      (((MODE_ESG.lookup p.1).getD esgDefault).road_space_eq : ℝ) * p.2).sum,
    noise_index_km := (km_by_mode.map fun p =>
      (((MODE_ESG.lookup p.1).getD esgDefault).noise_idx : ℝ) * p.2).sum,
    safety_risk_km := (km_by_mode.map fun p =>
      (((MODE_ESG.lookup p.1).getD esgDefault).safety_risk : ℝ) * p.2).sum }

/-- The parsed contents of the on-disk `geocode_cache.json`: an
insertion-ordered map from address keys to either coordinates or an explicit
cached `null`. -/
abbrev Cache := List (String × Option Point)

/-- Dictionary read on the cache. -/
def cacheLookup (c : Cache) (k : String) : Option (Option Point) :=
  c.lookup k

/-- Dictionary assignment `_cache[key] = v` on the cache. -/
def cacheInsert : Cache → String → Option Point → Cache
  | [], k, v => [(k, v)]
  | (k0, v0) :: rest, k, v =>
    if k0 = k then (k0, v) :: rest else (k0, v0) :: cacheInsert rest k v

/-- Outcome of one `requests.get` to Nominatim inside `geocode_address`:
a network exception, HTTP 429, an ok answer with a result, an ok answer with
an empty result list, an ok answer with malformed JSON, or another HTTP
error. -/
inductive HttpResp
  | netErr
  | tooMany
  | okResult (p : Point)
  | okEmpty
  | okMalformed
  | httpErr
deriving DecidableEq

/-- The Nominatim service as seen by the retry loop: the response to the
attempt-numbered request. -/
abbrev HttpFn := ℕ → HttpResp

/-- The retry loop of `geocode_address` (`for attempt in range(4)`), with the
remaining fuel and the current attempt number explicit; it returns the result,
the cache after any write, and the number of HTTP requests issued.  When the
fuel runs out the code caches an explicit `null` and returns `None`. -/
def geocodeLoop (key : String) (http : HttpFn) (cache : Cache) :
    ℕ → ℕ → Option Point × Cache × ℕ
  | 0, _ => (none, cacheInsert cache key none, 0)
  | fuel + 1, attempt =>
    match http attempt with
    | .okResult p => (some p, cacheInsert cache key (some p), 1)
    | .okEmpty => (none, cacheInsert cache key none, 1)
    | _ =>
      let r := geocodeLoop key http cache fuel (attempt + 1)
      (r.1, r.2.1, r.2.2 + 1)

/-- Python `str.strip()`: drop leading and trailing whitespace. -/
def strip (s : String) : String :=
  String.mk (((s.data.dropWhile Char.isWhitespace).reverse.dropWhile
    Char.isWhitespace).reverse)

/-- `geocode_address` of app.py over the loaded cache state: returns the
geocoding result, the cache after the call, and the number of HTTP requests
issued. -/
def geocode_address (cache : Cache) (addr : String) (http : HttpFn) :
    Option Point × Cache × ℕ :=
  let key := strip addr
  if key = "" then (none, cache, 0)
  else
    match cacheLookup cache key with
    | some val => (val, cache, 0)
    | none => geocodeLoop key http cache 4 0

/-- The Nominatim geocoder as seen by `build_city_graph`: address to optional
coordinates (the cache threading is irrelevant to the graph shape and is
handled by `geocode_address` itself). -/
abbrev GeoFn := String → Option Point

/-- The first loop of `build_city_graph`: the dictionary of cities whose
central-hub address geocodes, with empty `micro_hubs`. -/
def graph_phase1 (geo : GeoFn) (cities : List (String × String × String)) :
    String → Option CityObj :=
  cities.foldl
    (fun g entry =>
      match geo entry.2.2 with
      | none => g
      | some p =>
        fun c =>
          if c = entry.1 then
            some { city := entry.1,
                   central_hub := { key := "CENTRAL", name := entry.2.1, lat := p.1,
                                    lon := p.2, kind := "depot" },
                   micro_hubs := [] }
          else g c)
    (fun _ => none)

/-- The micro-hub list attached to a city by the second loop of
`build_city_graph`: the rows of that city in order (the `by_city` grouping),
truncated to ten (`rows[:10]`), keeping the geocoded ones. -/
def micro_hubs_for (geo : GeoFn) (micro_rows : List (String × String × String × String))
    (c : String) : List Node :=
  ((micro_rows.filter fun r => r.1 == c).take 10).filterMap fun r =>
    (geo r.2.2.2).map fun p =>
      { key := r.2.1, name := r.2.2.1, lat := p.1, lon := p.2, kind := "hub" }

/-- `build_city_graph` of app.py: central hubs, micro hubs (at most ten per
city), and the final filter dropping cities with no geocoded micro-hub. -/
def build_city_graph (geo : GeoFn) (cities : List (String × String × String))
    (micro_rows : List (String × String × String × String)) :
    String → Option CityObj :=
  fun c =>
    match graph_phase1 geo cities c with
    | none => none
    | some obj =>
      let mhs := micro_hubs_for geo micro_rows c
      if mhs.isEmpty then none else some { obj with micro_hubs := mhs }

/-- `nearest_micro` of app.py: scan of the micro-hub list keeping the
strictly closest hub, starting from `(None, 1e18)`. -/
noncomputable def nearest_micro (city_obj : CityObj) (dest : Point) : Option Node :=
  (city_obj.micro_hubs.foldl
    (fun (acc : Option Node × ℝ) h =>
      let d := haversine_km (h.lat, h.lon) dest
      if d < acc.2 then (some h, d) else acc)
    (none, 1e18)).1

/-- `get_micro_by_name` of app.py. -/
def get_micro_by_name (city_obj : CityObj) (name : String) : Option Node :=
  city_obj.micro_hubs.find? fun h => h.name == name

/-- `make_baseline` of app.py.  The globals `city_name`, `city`, `engine` are
passed explicitly; the chain entries are mode keys already (the caller filters
`parse_chain` output by membership in `MODES`), so the `m in MODES` conjunct
of the chain filter is identically true.  The `CITY_MODE_CAPS[city_name]`
access is `List.lookup`, with a Python `KeyError` as `none`; the unguarded
`chosen_hub.lat` access on a missing hub (an `AttributeError`) is `none` as
well. -/
noncomputable def make_baseline (city_name : String) (city : CityObj) (engine : String)
    (osrm : OsrmFn) (origin dest : Point) (chain0 : List Mode) (via_hub : Bool)
    (hub_override : Option Node) : Option (List Segment × Totals × Option Node) :=
  match CITY_MODE_CAPS.lookup city_name with
  | none => none
  | some caps =>
    let chain1 := chain0.filter fun m => caps.allowed.contains m
    let chain := if chain1.isEmpty then [Mode.truck] else chain1
    let segsHub : Option (List Segment × Option Node) :=
      if via_hub then
        match hub_override.orElse fun _ => nearest_micro city dest with
        | none => none
        | some chosen_hub =>
          let r1 := route_with_engine origin (chosen_hub.lat, chosen_hub.lon)
            (chain.headD Mode.truck) MODES engine osrm
          let i1 := impact_for_leg r1.1 (chain.headD Mode.truck)
          let s1 : Segment := { from_ := "Start", to_ := chosen_hub.name,
                                mode := chain.headD Mode.truck, distance_km := round3 r1.1,
                                time_h := i1.1, co2_kg := i1.2.1, cost := i1.2.2,
                                geometry := r1.2 }
          let mids := ((chain.drop 1).dropLast).enum.map fun im =>
            let i := impact_for_leg 0.5 im.2
            { from_ := chosen_hub.name ++ " – Xfer " ++ toString (im.1 + 1),
              to_ := chosen_hub.name ++ " – Xfer " ++ toString (im.1 + 1) ++ " end",
              mode := im.2, distance_km := round3 0.5, time_h := i.1, co2_kg := i.2.1,
              cost := i.2.2,
              geometry := [(chosen_hub.lat, chosen_hub.lon),
                           (chosen_hub.lat + 0.001, chosen_hub.lon + 0.001)] : Segment }
          let last_mode := if chain.length > 1 then chain.getLastD Mode.truck
                           else chain.headD Mode.truck
          let r2 := route_with_engine (chosen_hub.lat, chosen_hub.lon) dest last_mode
            MODES engine osrm
          let i2 := impact_for_leg r2.1 last_mode
          let s2 : Segment := { from_ := chosen_hub.name, to_ := "Destination",
                                mode := last_mode, distance_km := round3 r2.1,
                                time_h := i2.1, co2_kg := i2.2.1, cost := i2.2.2,
                                geometry := r2.2 }
          some (s1 :: mids ++ [s2], some chosen_hub)
      else
        let m0 := chain.headD Mode.truck
        let r := route_with_engine origin dest m0 MODES engine osrm
        let i := impact_for_leg r.1 m0
        some ([{ from_ := "Start", to_ := "Destination", mode := m0,
                 distance_km := round3 r.1, time_h := i.1, co2_kg := i.2.1,
                 cost := i.2.2, geometry := r.2 }], none)
    match segsHub with
    | none => none
    | some sh =>
      some (sh.1,
        { distance_km := (sh.1.map fun s => s.distance_km).sum,
          time_h := (sh.1.map fun s => s.time_h).sum,
          co2_kg := (sh.1.map fun s => s.co2_kg).sum,
          cost := (sh.1.map fun s => s.cost).sum },
        sh.2)

/-- Whether a response resolves the retry loop of `geocode_address` (an ok
answer whose JSON parses, with or without a result). -/
def isResolved : HttpResp → Bool
  | .okResult _ => true
  | .okEmpty => true
  | _ => false

/-- Total distance aggregated over the segments of one mode, as
`aggregate_mode_km` accumulates it. -/
noncomputable def mode_km (segments : List Segment) (m : Mode) : ℝ :=
  ((segments.filter fun s => s.mode == m).map fun s => s.distance_km).sum

/-- `search_best_routes` threaded through the on-disk state: its body issues
no file write, so the state is returned unchanged. -/
noncomputable def search_best_routesSt (city_name : String) (city_obj : CityObj)
    (origin dest : Point) (engine : String) (via_hub : Bool) (fixed_hub : Option Node)
    (osrm : OsrmFn) : Cache → Option SearchResult × Cache :=
  fun disk =>
    (search_best_routes city_name city_obj origin dest engine via_hub fixed_hub osrm, disk)

/-- `impact_for_leg` threaded through the on-disk state: no file write. -/
noncomputable def impact_for_legSt (distance_km : ℝ) (mode_key : Mode) :
    Cache → (ℝ × ℝ × ℝ) × Cache :=
  fun disk => (impact_for_leg distance_km mode_key, disk)

/-- `make_baseline` threaded through the on-disk state: no file write. -/
noncomputable def make_baselineSt (city_name : String) (city : CityObj) (engine : String)
    (osrm : OsrmFn) (origin dest : Point) (chain0 : List Mode) (via_hub : Bool)
    (hub_override : Option Node) :
    Cache → Option (List Segment × Totals × Option Node) × Cache :=
  fun disk =>
    (make_baseline city_name city engine osrm origin dest chain0 via_hub hub_override, disk)

/-- `esg_metrics_for_segments` threaded through the on-disk state: no file
write. -/
noncomputable def esg_metrics_for_segmentsSt (segments : List Segment) :
    Cache → EsgMetrics × Cache :=
  fun disk => (esg_metrics_for_segments segments, disk)

/-- The hub list ranged over by the via-hub search:
`[fixed_hub] if fixed_hub else city_obj["micro_hubs"]`. -/
def hubs_for (co : CityObj) (fh : Option Node) : List Node :=
  match fh with
  | some h => [h]
  | none => co.micro_hubs

/-- A concrete city object used to instantiate the search claims. -/
def hamburgLike : CityObj :=
  { city := "Hamburg, Germany",
    central_hub := { key := "CENTRAL", name := "Billbrook Central Warehouse",
                     lat := 53.5, lon := 10.0, kind := "depot" },
    micro_hubs := [{ key := "HH-MH1", name := "HafenCity", lat := 53.54, lon := 10.0,
                     kind := "hub" }] }

/-- The `CITY_MODE_CAPS` row of Hamburg, used by concrete instances. -/
def hamburgCaps : Caps :=
  { allowed := [.boat, .cargo_bike, .cargo_bus, .cargo_tram, .elcv, .small_van, .truck],
    notes := "dense waterways & strong bike infra; no robots, no tram freight" }

/-- The search result of a direct-mode Hamburg search with the haversine
engine; used to instantiate the search claims. -/
noncomputable def hamburgDirectRd : SearchResult :=
  score_and_pick (raw_candidates
    [.boat, .cargo_bike, .cargo_bus, .cargo_tram, .elcv, .small_van, .truck]
    hamburgLike (0, 0) (2, 2) "Haversine only" false none (fun _ _ _ => none))

/-! ### Generic list facts used by several claims -/

lemma isEmpty_eq_false_iff {α : Type} {l : List α} : l.isEmpty = false ↔ l ≠ [] := by
  cases l <;> simp

lemma foldl_pick_mem {α : Type} (f : α → ℝ) :
    ∀ (xs : List α) (x : α),
      xs.foldl (fun best y => if f y < f best then y else best) x ∈ x :: xs := by
  intro xs
  induction xs with
  | nil => intro x; simp
  | cons y ys ih =>
    intro x
    simp only [List.foldl_cons]
    have h := ih (if f y < f x then y else x)
    rcases List.mem_cons.mp h with h1 | h1
    · rw [h1]
      split
      · exact List.mem_cons_of_mem _ (List.mem_cons_self _ _)
      · exact List.mem_cons_self _ _
    · exact List.mem_cons_of_mem _ (List.mem_cons_of_mem _ h1)

lemma foldl_pick_le_init {α : Type} (f : α → ℝ) :
    ∀ (xs : List α) (x : α),
      f (xs.foldl (fun best y => if f y < f best then y else best) x) ≤ f x := by
  intro xs
  induction xs with
  | nil => intro x; simp
  | cons y ys ih =>
    intro x
    simp only [List.foldl_cons]
    refine le_trans (ih _) ?_
    rcases lt_or_le (f y) (f x) with h | h
    · rw [if_pos h]; exact le_of_lt h
    · rw [if_neg (not_lt.mpr h)]

lemma foldl_pick_le_mem {α : Type} (f : α → ℝ) :
    ∀ (xs : List α) (x : α) (y : α), y ∈ xs →
      f (xs.foldl (fun best y => if f y < f best then y else best) x) ≤ f y := by
  intro xs
  induction xs with
  | nil => intro x y hy; simp at hy
  | cons z zs ih =>
    intro x y hy
    simp only [List.foldl_cons]
    rcases List.mem_cons.mp hy with rfl | hy2
    · refine le_trans (foldl_pick_le_init f zs _) ?_
      rcases lt_or_le (f y) (f x) with h | h
      · rw [if_pos h]
      · rw [if_neg (not_lt.mpr h)]; exact h
    · exact ih _ y hy2

lemma minBy_eq_none_iff {α : Type} (f : α → ℝ) (l : List α) :
    minBy f l = none ↔ l = [] := by
  cases l <;> simp [minBy]

lemma minBy_spec {α : Type} (f : α → ℝ) (l : List α) (hne : l ≠ []) :
    ∃ c, minBy f l = some c ∧ c ∈ l ∧ ∀ y ∈ l, f c ≤ f y := by
  cases l with
  | nil => exact absurd rfl hne
  | cons x xs =>
    refine ⟨_, rfl, foldl_pick_mem f xs x, ?_⟩
    intro y hy
    rcases List.mem_cons.mp hy with rfl | hy2
    · exact foldl_pick_le_init f xs y
    · exact foldl_pick_le_mem f xs x y hy2

lemma foldl_rmin_mem : ∀ (xs : List ℝ) (x : ℝ), xs.foldl min x ∈ x :: xs := by
  intro xs
  induction xs with
  | nil => intro x; simp
  | cons y ys ih =>
    intro x
    simp only [List.foldl_cons]
    have h := ih (min x y)
    rcases List.mem_cons.mp h with h1 | h1
    · rcases min_choice x y with hc | hc
      · rw [h1, hc]; exact List.mem_cons_self _ _
      · rw [h1, hc]; exact List.mem_cons_of_mem _ (List.mem_cons_self _ _)
    · exact List.mem_cons_of_mem _ (List.mem_cons_of_mem _ h1)

lemma foldl_rmin_le_init : ∀ (xs : List ℝ) (x : ℝ), xs.foldl min x ≤ x := by
  intro xs
  induction xs with
  | nil => intro x; simp
  | cons y ys ih =>
    intro x
    simp only [List.foldl_cons]
    exact le_trans (ih _) (min_le_left _ _)

lemma foldl_rmin_le_mem : ∀ (xs : List ℝ) (x : ℝ) (y : ℝ), y ∈ xs → xs.foldl min x ≤ y := by
  intro xs
  induction xs with
  | nil => intro x y hy; simp at hy
  | cons z zs ih =>
    intro x y hy
    simp only [List.foldl_cons]
    rcases List.mem_cons.mp hy with rfl | hy2
    · exact le_trans (foldl_rmin_le_init zs _) (min_le_right _ _)
    · exact ih _ y hy2

lemma foldl_rmax_mem : ∀ (xs : List ℝ) (x : ℝ), xs.foldl max x ∈ x :: xs := by
  intro xs
  induction xs with
  | nil => intro x; simp
  | cons y ys ih =>
    intro x
    simp only [List.foldl_cons]
    have h := ih (max x y)
    rcases List.mem_cons.mp h with h1 | h1
    · rcases max_choice x y with hc | hc
      · rw [h1, hc]; exact List.mem_cons_self _ _
      · rw [h1, hc]; exact List.mem_cons_of_mem _ (List.mem_cons_self _ _)
    · exact List.mem_cons_of_mem _ (List.mem_cons_of_mem _ h1)

lemma foldl_rmax_ge_init : ∀ (xs : List ℝ) (x : ℝ), x ≤ xs.foldl max x := by
  intro xs
  induction xs with
  | nil => intro x; simp
  | cons y ys ih =>
    intro x
    simp only [List.foldl_cons]
    exact le_trans (le_max_left _ _) (ih _)

lemma foldl_rmax_ge_mem : ∀ (xs : List ℝ) (x : ℝ) (y : ℝ), y ∈ xs → y ≤ xs.foldl max x := by
  intro xs
  induction xs with
  | nil => intro x y hy; simp at hy
  | cons z zs ih =>
    intro x y hy
    simp only [List.foldl_cons]
    rcases List.mem_cons.mp hy with rfl | hy2
    · exact le_trans (le_max_right _ _) (foldl_rmax_ge_init zs _)
    · exact ih _ y hy2

lemma listMin_le {l : List ℝ} (hne : l ≠ []) : ∀ y ∈ l, listMin l ≤ y := by
  cases l with
  | nil => exact absurd rfl hne
  | cons x xs =>
    intro y hy
    rcases List.mem_cons.mp hy with rfl | hy2
    · exact foldl_rmin_le_init xs y
    · exact foldl_rmin_le_mem xs x y hy2

lemma listMin_mem {l : List ℝ} (hne : l ≠ []) : listMin l ∈ l := by
  cases l with
  | nil => exact absurd rfl hne
  | cons x xs => exact foldl_rmin_mem xs x

lemma listMax_ge {l : List ℝ} (hne : l ≠ []) : ∀ y ∈ l, y ≤ listMax l := by
  cases l with
  | nil => exact absurd rfl hne
  | cons x xs =>
    intro y hy
    rcases List.mem_cons.mp hy with rfl | hy2
    · exact foldl_rmax_ge_init xs y
    · exact foldl_rmax_ge_mem xs x y hy2

lemma listMax_mem {l : List ℝ} (hne : l ≠ []) : listMax l ∈ l := by
  cases l with
  | nil => exact absurd rfl hne
  | cons x xs => exact foldl_rmax_mem xs x

lemma lookup_mem {β : Type} {l : List (String × β)} {k : String} {b : β}
    (h : l.lookup k = some b) : (k, b) ∈ l := by
  induction l with
  | nil => simp [List.lookup] at h
  | cons kv rest ih =>
    rcases kv with ⟨k0, v0⟩
    rw [List.lookup] at h
    by_cases hk : k = k0
    · rw [show (k == k0) = true from beq_iff_eq.mpr hk] at h
      obtain rfl : v0 = b := Option.some.inj h
      subst hk
      exact List.mem_cons_self _ _
    · rw [show (k == k0) = false from beq_eq_false_iff_ne.mpr hk] at h
      exact List.mem_cons_of_mem _ (ih h)

/-! ### Facts about the normalization and score assignment -/

@[simp] lemma scoreCand_totals (cmin cmax kmin kmax : ℝ) (r : CandBase) :
    (scoreCand cmin cmax kmin kmax r).totals = r.totals := rfl

@[simp] lemma scoreCand_hub (cmin cmax kmin kmax : ℝ) (r : CandBase) :
    (scoreCand cmin cmax kmin kmax r).hub = r.hub := rfl

@[simp] lemma scoreCand_modes (cmin cmax kmin kmax : ℝ) (r : CandBase) :
    (scoreCand cmin cmax kmin kmax r).modes = r.modes := rfl

@[simp] lemma scoreCand_co2 (cmin cmax kmin kmax : ℝ) (r : CandBase) :
    (scoreCand cmin cmax kmin kmax r).score_norm_co2 = norm r.totals.co2_kg cmin cmax := rfl

@[simp] lemma scoreCand_cost (cmin cmax kmin kmax : ℝ) (r : CandBase) :
    (scoreCand cmin cmax kmin kmax r).score_norm_cost = norm r.totals.cost kmin kmax := rfl

lemma norm_nonneg_of_bounds {x lo hi : ℝ} (h1 : lo ≤ x) (_h2 : x ≤ hi) :
    0 ≤ norm x lo hi := by
  unfold norm
  split
  · norm_num
  · next hne =>
    have hlt : lo < hi := lt_of_le_of_ne (le_trans h1 _h2) (Ne.symm hne)
    exact div_nonneg (sub_nonneg.mpr h1) (le_of_lt (sub_pos.mpr hlt))

lemma norm_le_one_of_bounds {x lo hi : ℝ} (h1 : lo ≤ x) (h2 : x ≤ hi) :
    norm x lo hi ≤ 1 := by
  unfold norm
  split
  · norm_num
  · next hne =>
    have hlt : lo < hi := lt_of_le_of_ne (le_trans h1 h2) (Ne.symm hne)
    exact (div_le_one (sub_pos.mpr hlt)).mpr (sub_le_sub_right h2 lo)

lemma norm_lo (lo hi : ℝ) : norm lo lo hi = 0 := by
  unfold norm
  split
  · norm_num
  · simp

lemma norm_hi {lo hi : ℝ} (h : hi ≠ lo) : norm hi lo hi = 1 := by
  unfold norm
  rw [if_neg h]
  exact div_self (sub_ne_zero.mpr h)

/-! ### C4: great-circle fallback of the router -/

/-- C4: for every pair of points and every mode, if the mode has no OSRM
profile, or the selected engine is not "OSRM (open data)", or the OSRM query
yields no result, then `route_with_engine` returns the haversine distance
together with the straight two-point path. -/
theorem spec_C4 (a b : Point) (m : Mode) (engine : String) (osrm : OsrmFn)
    (h : (MODES m).osrm_profile = none ∨ engine ≠ "OSRM (open data)" ∨
      (∀ p, (MODES m).osrm_profile = some p → osrm a b p = none)) :
    route_with_engine a b m MODES engine osrm = (haversine_km a b, [a, b]) := by
  unfold route_with_engine
  cases hp : (MODES m).osrm_profile with
  | none => rfl
  | some profile =>
    dsimp only
    by_cases he : engine = "OSRM (open data)"
    · rw [if_pos he]
      rcases h with h1 | h2 | h3
      · rw [hp] at h1; cases h1
      · exact absurd he h2
      · rw [h3 profile hp]
    · rw [if_neg he]

/-- Witness for C4 at the cargo tram (no OSRM profile), the OSRM engine and a
service that never answers. -/
theorem spec_C4_witness :
    route_with_engine ((0 : ℚ), (0 : ℚ)) ((1 : ℚ), (1 : ℚ)) Mode.cargo_tram MODES
      "OSRM (open data)" (fun _ _ _ => none) =
      (haversine_km ((0 : ℚ), (0 : ℚ)) ((1 : ℚ), (1 : ℚ)),
        [((0 : ℚ), (0 : ℚ)), ((1 : ℚ), (1 : ℚ))]) :=
  spec_C4 _ _ _ _ _ (Or.inl rfl)

/-! ### C5: per-leg impact formula -/

/-- C5: for every mode and every nonnegative distance, `impact_for_leg`
returns exactly `(d / max(speed_kph, 1e-6), emission_kg_per_km * d,
(cost_trans + cost_labour) * d)`; the divisor is positive, every configured
mode has `speed_kph ≥ 1e-6`, and hence the time equals `d / speed_kph`. -/
theorem spec_C5 (m : Mode) (d : ℝ) (hd : 0 ≤ d) :
    impact_for_leg d m =
      (d / max (((MODES m).speed_kph : ℝ)) 1e-6,
       ((MODES m).emission_kg_per_km : ℝ) * d,
       (((MODES m).cost_trans : ℝ) + ((MODES m).cost_labour : ℝ)) * d) ∧
    0 < max (((MODES m).speed_kph : ℝ)) 1e-6 ∧
    (1e-6 : ℚ) ≤ (MODES m).speed_kph ∧
    (impact_for_leg d m).1 = d / ((MODES m).speed_kph : ℝ) := by
  have hsp : (1e-6 : ℚ) ≤ (MODES m).speed_kph := by
    cases m <;> unfold MODES <;> norm_num
  refine ⟨rfl, ?_, hsp, ?_⟩
  · calc (0 : ℝ) < 1e-6 := by norm_num
      _ ≤ max (((MODES m).speed_kph : ℝ)) 1e-6 := le_max_right _ _
  · have hsp' : (1e-6 : ℝ) ≤ ((MODES m).speed_kph : ℝ) := by
      calc (1e-6 : ℝ) = ((1e-6 : ℚ) : ℝ) := by norm_num
        _ ≤ ((MODES m).speed_kph : ℝ) := by exact_mod_cast hsp
    show d / max (((MODES m).speed_kph : ℝ)) 1e-6 = d / ((MODES m).speed_kph : ℝ)
    rw [max_eq_left hsp']

/-- Witness for C5 at the truck and distance zero. -/
theorem spec_C5_witness :
    impact_for_leg 0 Mode.truck =
      (0 / max (((MODES Mode.truck).speed_kph : ℝ)) 1e-6,
       ((MODES Mode.truck).emission_kg_per_km : ℝ) * 0,
       (((MODES Mode.truck).cost_trans : ℝ) + ((MODES Mode.truck).cost_labour : ℝ)) * 0) ∧
    0 < max (((MODES Mode.truck).speed_kph : ℝ)) 1e-6 ∧
    (1e-6 : ℚ) ≤ (MODES Mode.truck).speed_kph ∧
    (impact_for_leg 0 Mode.truck).1 = 0 / ((MODES Mode.truck).speed_kph : ℝ) :=
  spec_C5 Mode.truck 0 (le_refl 0)

/-! ### Structure of the search result -/

lemma search_eq_some {cn : String} {co : CityObj} {o d : Point} {e : String} {vh : Bool}
    {fh : Option Node} {osrm : OsrmFn} {rd : SearchResult}
    (h : search_best_routes cn co o d e vh fh osrm = some rd) :
    ∃ caps, CITY_MODE_CAPS.lookup cn = some caps ∧
      rd = score_and_pick (raw_candidates caps.allowed co o d e vh fh osrm) := by
  unfold search_best_routes at h
  cases hcap : CITY_MODE_CAPS.lookup cn with
  | none => rw [hcap] at h; cases h
  | some caps =>
    rw [hcap] at h
    exact ⟨caps, rfl, (Option.some.inj h).symm⟩

lemma sap_all_of_ne {R : List CandBase} (hR : R ≠ []) :
    (score_and_pick R).all = R.map (scoreCand
      (listMin (R.map fun r => r.totals.co2_kg)) (listMax (R.map fun r => r.totals.co2_kg))
      (listMin (R.map fun r => r.totals.cost)) (listMax (R.map fun r => r.totals.cost))) := by
  have hF : R.isEmpty = false := isEmpty_eq_false_iff.mpr hR
  simp [score_and_pick, hF]

lemma sap_min_co2_of_ne {R : List CandBase} (hR : R ≠ []) :
    (score_and_pick R).min_co2 =
      minBy (fun r => r.totals.co2_kg) (score_and_pick R).all := by
  have hF : R.isEmpty = false := isEmpty_eq_false_iff.mpr hR
  simp [score_and_pick, hF]

lemma sap_min_cost_of_ne {R : List CandBase} (hR : R ≠ []) :
    (score_and_pick R).min_cost =
      minBy (fun r => r.totals.cost) (score_and_pick R).all := by
  have hF : R.isEmpty = false := isEmpty_eq_false_iff.mpr hR
  simp [score_and_pick, hF]

lemma sap_all_eq_nil_iff {R : List CandBase} :
    (score_and_pick R).all = [] ↔ R = [] := by
  by_cases hR : R = []
  · subst hR; simp [score_and_pick]
  · rw [sap_all_of_ne hR]
    simp [hR]

lemma pick_best_combo_spec (rd : SearchResult) (w : ℝ) (hne : rd.all ≠ []) :
    ∃ c, pick_best_combo rd w = some c ∧ c ∈ rd.all ∧ ∀ r ∈ rd.all,
      max 0 (min 1 w) * c.score_norm_cost + (1 - max 0 (min 1 w)) * c.score_norm_co2 ≤
      max 0 (min 1 w) * r.score_norm_cost + (1 - max 0 (min 1 w)) * r.score_norm_co2 := by
  have hF : rd.all.isEmpty = false := isEmpty_eq_false_iff.mpr hne
  obtain ⟨c, hc, hmem, hmin⟩ := minBy_spec
    (fun r : Cand => max 0 (min 1 w) * r.score_norm_cost +
      (1 - max 0 (min 1 w)) * r.score_norm_co2) rd.all hne
  refine ⟨c, ?_, hmem, hmin⟩
  simp [pick_best_combo, hF, hc]

lemma pick_best_combo_none_iff (rd : SearchResult) (w : ℝ) :
    pick_best_combo rd w = none ↔ rd.all = [] := by
  by_cases hne : rd.all = []
  · simp [pick_best_combo, hne]
  · have hF : rd.all.isEmpty = false := isEmpty_eq_false_iff.mpr hne
    obtain ⟨c, hc, _, _⟩ := minBy_spec
      (fun r : Cand => max 0 (min 1 w) * r.score_norm_cost +
        (1 - max 0 (min 1 w)) * r.score_norm_co2) rd.all hne
    simp [pick_best_combo, hF, hc, hne]

/-! ### C1: the three selected optima -/

/-- C1: whenever the search returns a result with a non-empty candidate set,
`min_co2` is a member of the set minimizing total `co2_kg`, `min_cost` is a
member minimizing total `cost`, and for every weight `w` the pick of
`pick_best_combo` is a member minimizing
`clamp(w) * score_norm_cost + (1 - clamp(w)) * score_norm_co2` with
`clamp(w) = max 0 (min 1 w)`; `pick_best_combo` returns `none` exactly when
the candidate set is empty. -/
theorem spec_C1 (cn : String) (co : CityObj) (o d : Point) (e : String) (vh : Bool)
    (fh : Option Node) (osrm : OsrmFn) (rd : SearchResult) (w : ℝ)
    (h : search_best_routes cn co o d e vh fh osrm = some rd) :
    (rd.all ≠ [] →
      (∃ c, rd.min_co2 = some c ∧ c ∈ rd.all ∧
        ∀ r ∈ rd.all, c.totals.co2_kg ≤ r.totals.co2_kg) ∧
      (∃ c, rd.min_cost = some c ∧ c ∈ rd.all ∧
        ∀ r ∈ rd.all, c.totals.cost ≤ r.totals.cost) ∧
      (∃ c, pick_best_combo rd w = some c ∧ c ∈ rd.all ∧ ∀ r ∈ rd.all,
        max 0 (min 1 w) * c.score_norm_cost + (1 - max 0 (min 1 w)) * c.score_norm_co2 ≤
        max 0 (min 1 w) * r.score_norm_cost + (1 - max 0 (min 1 w)) * r.score_norm_co2)) ∧
    (pick_best_combo rd w = none ↔ rd.all = []) := by
  obtain ⟨caps, hcap, rfl⟩ := search_eq_some h
  refine ⟨?_, pick_best_combo_none_iff _ w⟩
  intro hne
  have hR : raw_candidates caps.allowed co o d e vh fh osrm ≠ [] := by
    intro hc
    exact hne (sap_all_eq_nil_iff.mpr hc)
  refine ⟨?_, ?_, pick_best_combo_spec _ w hne⟩
  · obtain ⟨c, hc, hmem, hmin⟩ := minBy_spec (fun r : Cand => r.totals.co2_kg) _ hne
    exact ⟨c, by rw [sap_min_co2_of_ne hR]; exact hc, hmem, hmin⟩
  · obtain ⟨c, hc, hmem, hmin⟩ := minBy_spec (fun r : Cand => r.totals.cost) _ hne
    exact ⟨c, by rw [sap_min_cost_of_ne hR]; exact hc, hmem, hmin⟩

lemma sap_values_co2 {R : List CandBase} (hR : R ≠ []) :
    ((score_and_pick R).all.map fun c => c.totals.co2_kg) =
      R.map fun r => r.totals.co2_kg := by
  rw [sap_all_of_ne hR]
  simp [List.map_map, Function.comp_def]

lemma sap_values_cost {R : List CandBase} (hR : R ≠ []) :
    ((score_and_pick R).all.map fun c => c.totals.cost) =
      R.map fun r => r.totals.cost := by
  rw [sap_all_of_ne hR]
  simp [List.map_map, Function.comp_def]

lemma sap_scores {R : List CandBase} (hR : R ≠ []) :
    ∀ r ∈ (score_and_pick R).all,
      r.score_norm_co2 = norm r.totals.co2_kg
        (listMin ((score_and_pick R).all.map fun c => c.totals.co2_kg))
        (listMax ((score_and_pick R).all.map fun c => c.totals.co2_kg)) ∧
      r.score_norm_cost = norm r.totals.cost
        (listMin ((score_and_pick R).all.map fun c => c.totals.cost))
        (listMax ((score_and_pick R).all.map fun c => c.totals.cost)) := by
  intro r hr
  rw [sap_values_co2 hR, sap_values_cost hR]
  rw [sap_all_of_ne hR] at hr
  obtain ⟨b, _hb, rfl⟩ := List.mem_map.mp hr
  simp

/-! ### C3: min-max normalization across the candidate set -/

/-- C3: after a search over a non-empty candidate set, every candidate's
`score_norm_co2` and `score_norm_cost` equal the min-max normalization of its
totals over the whole set (with score `0` when the maximum equals the
minimum, by definition of `norm`); every score lies in `[0, 1]`, some
candidate scores `0` on each axis, and when the values differ some candidate
scores `1`. -/
theorem spec_C3 (cn : String) (co : CityObj) (o d : Point) (e : String) (vh : Bool)
    (fh : Option Node) (osrm : OsrmFn) (rd : SearchResult)
    (h : search_best_routes cn co o d e vh fh osrm = some rd) (hne : rd.all ≠ []) :
    (∀ r ∈ rd.all,
      r.score_norm_co2 = norm r.totals.co2_kg
        (listMin (rd.all.map fun c => c.totals.co2_kg))
        (listMax (rd.all.map fun c => c.totals.co2_kg)) ∧
      r.score_norm_cost = norm r.totals.cost
        (listMin (rd.all.map fun c => c.totals.cost))
        (listMax (rd.all.map fun c => c.totals.cost)) ∧
      0 ≤ r.score_norm_co2 ∧ r.score_norm_co2 ≤ 1 ∧
      0 ≤ r.score_norm_cost ∧ r.score_norm_cost ≤ 1) ∧
    (∃ r ∈ rd.all, r.score_norm_co2 = 0) ∧
    (∃ r ∈ rd.all, r.score_norm_cost = 0) ∧
    (listMax (rd.all.map fun c => c.totals.co2_kg) ≠
        listMin (rd.all.map fun c => c.totals.co2_kg) →
      ∃ r ∈ rd.all, r.score_norm_co2 = 1) ∧
    (listMax (rd.all.map fun c => c.totals.cost) ≠
        listMin (rd.all.map fun c => c.totals.cost) →
      ∃ r ∈ rd.all, r.score_norm_cost = 1) := by
  obtain ⟨caps, hcap, rfl⟩ := search_eq_some h
  have hR : raw_candidates caps.allowed co o d e vh fh osrm ≠ [] := by
    intro hc
    exact hne (sap_all_eq_nil_iff.mpr hc)
  have hVco2 : ((score_and_pick (raw_candidates caps.allowed co o d e vh fh osrm)).all.map
      fun c => c.totals.co2_kg) ≠ [] := by
    intro hc
    exact hne (List.map_eq_nil_iff.mp hc)
  have hVcost : ((score_and_pick (raw_candidates caps.allowed co o d e vh fh osrm)).all.map
      fun c => c.totals.cost) ≠ [] := by
    intro hc
    exact hne (List.map_eq_nil_iff.mp hc)
  refine ⟨?_, ?_, ?_, ?_, ?_⟩
  · intro r hr
    obtain ⟨hs1, hs2⟩ := sap_scores hR r hr
    have hco2mem := List.mem_map_of_mem (fun c : Cand => c.totals.co2_kg) hr
    have hcostmem := List.mem_map_of_mem (fun c : Cand => c.totals.cost) hr
    have hlo1 := listMin_le hVco2 _ hco2mem
    have hhi1 := listMax_ge hVco2 _ hco2mem
    have hlo2 := listMin_le hVcost _ hcostmem
    have hhi2 := listMax_ge hVcost _ hcostmem
    refine ⟨hs1, hs2, ?_, ?_, ?_, ?_⟩
    · rw [hs1]; exact norm_nonneg_of_bounds hlo1 hhi1
    · rw [hs1]; exact norm_le_one_of_bounds hlo1 hhi1
    · rw [hs2]; exact norm_nonneg_of_bounds hlo2 hhi2
    · rw [hs2]; exact norm_le_one_of_bounds hlo2 hhi2
  · obtain ⟨r, hr, hval⟩ := List.mem_map.mp (listMin_mem hVco2)
    refine ⟨r, hr, ?_⟩
    rw [(sap_scores hR r hr).1, ← hval]
    exact norm_lo _ _
  · obtain ⟨r, hr, hval⟩ := List.mem_map.mp (listMin_mem hVcost)
    refine ⟨r, hr, ?_⟩
    rw [(sap_scores hR r hr).2, ← hval]
    exact norm_lo _ _
  · intro hdiff
    obtain ⟨r, hr, hval⟩ := List.mem_map.mp (listMax_mem hVco2)
    refine ⟨r, hr, ?_⟩
    rw [(sap_scores hR r hr).1, hval]
    exact norm_hi hdiff
  · intro hdiff
    obtain ⟨r, hr, hval⟩ := List.mem_map.mp (listMax_mem hVcost)
    refine ⟨r, hr, ?_⟩
    rw [(sap_scores hR r hr).2, hval]
    exact norm_hi hdiff





lemma hamburgDirect_eq :
    search_best_routes "Hamburg, Germany" hamburgLike (0, 0) (2, 2)
      "Haversine only" false none (fun _ _ _ => none) = some hamburgDirectRd := rfl

lemma hamburgDirectRd_all_ne : hamburgDirectRd.all ≠ [] := by
  intro hc
  unfold hamburgDirectRd at hc
  rw [sap_all_eq_nil_iff] at hc
  simp [raw_candidates] at hc

/-- Witness for C1: a direct-mode search in the Hamburg configuration. -/
theorem spec_C1_witness :
    ∃ rd, search_best_routes "Hamburg, Germany" hamburgLike (0, 0) (2, 2)
        "Haversine only" false none (fun _ _ _ => none) = some rd ∧
      ((rd.all ≠ [] →
        (∃ c, rd.min_co2 = some c ∧ c ∈ rd.all ∧
          ∀ r ∈ rd.all, c.totals.co2_kg ≤ r.totals.co2_kg) ∧
        (∃ c, rd.min_cost = some c ∧ c ∈ rd.all ∧
          ∀ r ∈ rd.all, c.totals.cost ≤ r.totals.cost) ∧
        (∃ c, pick_best_combo rd (1 / 2) = some c ∧ c ∈ rd.all ∧ ∀ r ∈ rd.all,
          max 0 (min 1 (1 / 2)) * c.score_norm_cost +
            (1 - max 0 (min 1 (1 / 2))) * c.score_norm_co2 ≤
          max 0 (min 1 (1 / 2)) * r.score_norm_cost +
            (1 - max 0 (min 1 (1 / 2))) * r.score_norm_co2)) ∧
       (pick_best_combo rd (1 / 2) = none ↔ rd.all = [])) := by
  refine ⟨_, rfl, ?_⟩
  exact spec_C1 "Hamburg, Germany" hamburgLike (0, 0) (2, 2) "Haversine only" false none
    (fun _ _ _ => none) _ (1 / 2) rfl

/-- Witness for C3: in the Hamburg direct search the candidate set is
nonempty, its scores are the min-max normalizations, and each axis has a
zero-scoring candidate. -/
theorem spec_C3_witness :
    hamburgDirectRd.all ≠ [] ∧
    (∀ r ∈ hamburgDirectRd.all,
      r.score_norm_co2 = norm r.totals.co2_kg
        (listMin (hamburgDirectRd.all.map fun c => c.totals.co2_kg))
        (listMax (hamburgDirectRd.all.map fun c => c.totals.co2_kg)) ∧
      r.score_norm_cost = norm r.totals.cost
        (listMin (hamburgDirectRd.all.map fun c => c.totals.cost))
        (listMax (hamburgDirectRd.all.map fun c => c.totals.cost)) ∧
      0 ≤ r.score_norm_co2 ∧ r.score_norm_co2 ≤ 1 ∧
      0 ≤ r.score_norm_cost ∧ r.score_norm_cost ≤ 1) ∧
    (∃ r ∈ hamburgDirectRd.all, r.score_norm_co2 = 0) ∧
    (∃ r ∈ hamburgDirectRd.all, r.score_norm_cost = 0) :=
  ⟨hamburgDirectRd_all_ne,
    (spec_C3 "Hamburg, Germany" hamburgLike (0, 0) (2, 2) "Haversine only" false none
      (fun _ _ _ => none) _ hamburgDirect_eq hamburgDirectRd_all_ne).1,
    (spec_C3 "Hamburg, Germany" hamburgLike (0, 0) (2, 2) "Haversine only" false none
      (fun _ _ _ => none) _ hamburgDirect_eq hamburgDirectRd_all_ne).2.1,
    (spec_C3 "Hamburg, Germany" hamburgLike (0, 0) (2, 2) "Haversine only" false none
      (fun _ _ _ => none) _ hamburgDirect_eq hamburgDirectRd_all_ne).2.2.1⟩

/-! ### C2: the enumeration of candidates -/

lemma length_flatMap_const {α β : Type} (l : List α) (f : α → List β) (n : ℕ)
    (h : ∀ a ∈ l, (f a).length = n) : (l.flatMap f).length = l.length * n := by
  induction l with
  | nil => simp
  | cons a t ih =>
    rw [List.flatMap_cons, List.length_append, h a (by simp),
      ih (fun x hx => h x (by simp [hx])), List.length_cons]
    ring



lemma raw_candidates_proj (allowed : List Mode) (co : CityObj) (o d : Point) (e : String)
    (vh : Bool) (fh : Option Node) (osrm : OsrmFn) :
    ((raw_candidates allowed co o d e vh fh osrm).map fun c => (c.hub, c.modes)) =
      if vh then
        (hubs_for co fh).flatMap fun hub =>
          allowed.flatMap fun m1 => allowed.map fun m2 => (some hub, [m1, m2])
      else allowed.map fun m => ((none : Option Node), [m]) := by
  unfold raw_candidates hubs_for
  cases vh with
  | false => simp [List.map_map, Function.comp_def]
  | true =>
    simp [List.map_flatMap, List.map_map, Function.comp_def]

lemma sap_hub_modes (R : List CandBase) :
    ((score_and_pick R).all.map fun c => (c.hub, c.modes)) =
      R.map fun r => (r.hub, r.modes) := by
  by_cases hR : R = []
  · subst hR; simp [score_and_pick]
  · rw [sap_all_of_ne hR]
    simp [List.map_map, Function.comp_def]

lemma sap_length (R : List CandBase) : (score_and_pick R).all.length = R.length := by
  by_cases hR : R = []
  · subst hR; simp [score_and_pick]
  · rw [sap_all_of_ne hR, List.length_map]

lemma raw_candidates_length (allowed : List Mode) (co : CityObj) (o d : Point) (e : String)
    (vh : Bool) (fh : Option Node) (osrm : OsrmFn) :
    (raw_candidates allowed co o d e vh fh osrm).length =
      if vh then (hubs_for co fh).length * allowed.length * allowed.length
      else allowed.length := by
  have hproj := congrArg List.length (raw_candidates_proj allowed co o d e vh fh osrm)
  rw [List.length_map] at hproj
  rw [hproj]
  cases vh with
  | false => simp
  | true =>
    simp only [reduceIte]
    rw [length_flatMap_const _ _ (allowed.length * allowed.length)
      (fun hub _ => length_flatMap_const _ _ allowed.length (fun m1 _ => by simp))]
    rw [Nat.mul_assoc]

lemma raw_candidates_modes_allowed (allowed : List Mode) (co : CityObj) (o d : Point)
    (e : String) (vh : Bool) (fh : Option Node) (osrm : OsrmFn) :
    ∀ c ∈ raw_candidates allowed co o d e vh fh osrm, ∀ m ∈ c.modes, m ∈ allowed := by
  intro c hc m hm
  have hmem := List.mem_map_of_mem (fun c : CandBase => (c.hub, c.modes)) hc
  rw [raw_candidates_proj] at hmem
  cases vh with
  | false =>
    simp only [reduceIte] at hmem
    obtain ⟨m0, hm0, heq⟩ := List.mem_map.mp hmem
    have h2 : [m0] = c.modes := congrArg Prod.snd heq
    rw [← h2] at hm
    obtain rfl := List.mem_singleton.mp hm
    exact hm0
  | true =>
    simp only [reduceIte] at hmem
    obtain ⟨hub, _, hmem2⟩ := List.mem_flatMap.mp hmem
    obtain ⟨m1, hm1, hmem3⟩ := List.mem_flatMap.mp hmem2
    obtain ⟨m2, hm2, heq⟩ := List.mem_map.mp hmem3
    have h2 : [m1, m2] = c.modes := congrArg Prod.snd heq
    rw [← h2] at hm
    rcases List.mem_cons.mp hm with rfl | hm2'
    · exact hm1
    · obtain rfl := List.mem_singleton.mp hm2'
      exact hm2

lemma caps_allowed_le_eleven {cn : String} {caps : Caps}
    (h : CITY_MODE_CAPS.lookup cn = some caps) : caps.allowed.length ≤ 11 := by
  have hall : CITY_MODE_CAPS.all (fun p => decide (p.2.allowed.length ≤ 11)) = true := by
    decide
  exact of_decide_eq_true (List.all_eq_true.mp hall (cn, caps) (lookup_mem h))

lemma build_some_micro {geo : GeoFn} {cities : List (String × String × String)}
    {rows : List (String × String × String × String)} {c : String} {co : CityObj}
    (h : build_city_graph geo cities rows c = some co) :
    co.micro_hubs = micro_hubs_for geo rows c ∧ co.micro_hubs ≠ [] ∧
      co.micro_hubs.length ≤ 10 := by
  unfold build_city_graph at h
  cases hp : graph_phase1 geo cities c with
  | none => rw [hp] at h; cases h
  | some obj =>
    rw [hp] at h
    dsimp only at h
    cases hE : (micro_hubs_for geo rows c).isEmpty with
    | true => rw [hE] at h; cases h
    | false =>
      rw [hE] at h
      simp only [Bool.false_eq_true, if_false] at h
      obtain rfl := (Option.some.inj h).symm
      refine ⟨rfl, isEmpty_eq_false_iff.mp hE, ?_⟩
      unfold micro_hubs_for
      refine le_trans (List.length_filterMap_le _ _) ?_
      rw [List.length_take]
      exact min_le_left _ _

/-- C2: the search enumerates exactly the permitted combinations.  The
`(hub, modes)` projection of the candidate list is the triple product over
hubs (the fixed hub, or all of the city's micro-hubs) and ordered pairs of
allowed modes when routing via a hub, and the allowed-mode list itself for
direct routing; the candidate count is the corresponding product; every
candidate uses only city-permitted modes; and for a city object built by
`build_city_graph` (at most ten micro-hubs) and an allowed list from
`CITY_MODE_CAPS` (at most eleven modes) the count never exceeds
`10 * 11 * 11 = 1210`. -/
theorem spec_C2 (geo : GeoFn) (cities : List (String × String × String))
    (rows : List (String × String × String × String)) (cn : String) (co : CityObj)
    (o d : Point) (e : String) (vh : Bool) (fh : Option Node) (osrm : OsrmFn)
    (caps : Caps) (rd : SearchResult)
    (hb : build_city_graph geo cities rows cn = some co)
    (hcap : CITY_MODE_CAPS.lookup cn = some caps)
    (h : search_best_routes cn co o d e vh fh osrm = some rd) :
    (rd.all.map fun c => (c.hub, c.modes)) =
      (if vh then
        (hubs_for co fh).flatMap fun hub =>
          caps.allowed.flatMap fun m1 => caps.allowed.map fun m2 => (some hub, [m1, m2])
      else caps.allowed.map fun m => ((none : Option Node), [m])) ∧
    rd.all.length =
      (if vh then (hubs_for co fh).length * caps.allowed.length * caps.allowed.length
      else caps.allowed.length) ∧
    (∀ c ∈ rd.all, ∀ m ∈ c.modes, m ∈ caps.allowed) ∧
    rd.all.length ≤ 1210 := by
  obtain ⟨caps', hcap', rfl⟩ := search_eq_some h
  rw [hcap] at hcap'
  obtain rfl := Option.some.inj hcap'
  have hhubs := (build_some_micro hb).2.2
  have hallowed := caps_allowed_le_eleven hcap
  have hlen : (score_and_pick (raw_candidates caps.allowed co o d e vh fh osrm)).all.length =
      (if vh then (hubs_for co fh).length * caps.allowed.length * caps.allowed.length
      else caps.allowed.length) := by
    rw [sap_length, raw_candidates_length]
  refine ⟨?_, hlen, ?_, ?_⟩
  · rw [sap_hub_modes, raw_candidates_proj]
  · intro c hc m hm
    by_cases hR : raw_candidates caps.allowed co o d e vh fh osrm = []
    · rw [hR] at hc
      simp [score_and_pick] at hc
    · rw [sap_all_of_ne hR] at hc
      obtain ⟨b, hb2, rfl⟩ := List.mem_map.mp hc
      exact raw_candidates_modes_allowed _ _ _ _ _ _ _ _ b hb2 m hm
  · rw [hlen]
    have hh10 : (hubs_for co fh).length ≤ 10 := by
      cases fh with
      | none => exact hhubs
      | some hb0 => simp [hubs_for]
    cases vh with
    | false => exact le_trans hallowed (by norm_num)
    | true =>
      exact le_trans (Nat.mul_le_mul (Nat.mul_le_mul hh10 hallowed) hallowed) (by norm_num)



/-- Witness for C2: a via-hub search over a one-city graph built from a
two-address geocoder. -/
theorem spec_C2_witness :
    ∃ rd, search_best_routes "Hamburg, Germany" hamburgLike (0, 0) (2, 2)
        "Haversine only" true none (fun _ _ _ => none) = some rd ∧
      (rd.all.map fun c => (c.hub, c.modes)) =
        ((hubs_for hamburgLike none).flatMap fun hub =>
          hamburgCaps.allowed.flatMap fun m1 =>
            hamburgCaps.allowed.map fun m2 => (some hub, [m1, m2])) ∧
      rd.all.length =
        (hubs_for hamburgLike none).length * hamburgCaps.allowed.length *
          hamburgCaps.allowed.length ∧
      (∀ c ∈ rd.all, ∀ m ∈ c.modes, m ∈ hamburgCaps.allowed) ∧
      rd.all.length ≤ 1210 := by
  refine ⟨_, rfl, ?_, ?_, ?_, ?_⟩
  all_goals
    have H := spec_C2
      (fun a => if a = "addrC" then some ((53.5 : ℚ), (10.0 : ℚ))
        else if a = "addrM" then some ((53.54 : ℚ), (10.0 : ℚ)) else none)
      [("Hamburg, Germany", "Billbrook Central Warehouse", "addrC")]
      [("Hamburg, Germany", "HH-MH1", "HafenCity", "addrM")]
      "Hamburg, Germany" hamburgLike (0, 0) (2, 2) "Haversine only" true none
      (fun _ _ _ => none) hamburgCaps _ rfl rfl rfl
  · exact H.1
  · exact H.2.1
  · exact H.2.2.1
  · exact H.2.2.2

/-! ### C9: invariants of the built city graph -/

lemma graph_phase1_aux (geo : GeoFn) :
    ∀ (cities : List (String × String × String)) (g : String → Option CityObj)
      (c : String) (obj : CityObj),
      (cities.foldl
        (fun g entry =>
          match geo entry.2.2 with
          | none => g
          | some p =>
            fun c =>
              if c = entry.1 then
                some { city := entry.1,
                       central_hub := { key := "CENTRAL", name := entry.2.1, lat := p.1,
                                        lon := p.2, kind := "depot" },
                       micro_hubs := [] }
              else g c) g) c = some obj →
      g c = some obj ∨ ∃ entry ∈ cities, entry.1 = c ∧ ∃ p, geo entry.2.2 = some p ∧
        obj = { city := entry.1,
                central_hub := { key := "CENTRAL", name := entry.2.1, lat := p.1,
                                 lon := p.2, kind := "depot" },
                micro_hubs := [] } := by
  intro cities
  induction cities with
  | nil => intro g c obj h; exact Or.inl h
  | cons e es ih =>
    intro g c obj h
    simp only [List.foldl_cons] at h
    rcases ih _ c obj h with h1 | h1
    · cases hg : geo e.2.2 with
      | none =>
        rw [hg] at h1
        exact Or.inl h1
      | some p =>
        rw [hg] at h1
        dsimp only at h1
        by_cases hc : c = e.1
        · rw [if_pos hc] at h1
          exact Or.inr ⟨e, List.mem_cons_self _ _, hc.symm, p, hg, (Option.some.inj h1).symm⟩
        · rw [if_neg hc] at h1
          exact Or.inl h1
    · obtain ⟨entry, hmem, rest⟩ := h1
      exact Or.inr ⟨entry, List.mem_cons_of_mem _ hmem, rest⟩

lemma graph_phase1_spec {geo : GeoFn} {cities : List (String × String × String)}
    {c : String} {obj : CityObj} (h : graph_phase1 geo cities c = some obj) :
    ∃ entry ∈ cities, entry.1 = c ∧ ∃ p, geo entry.2.2 = some p ∧
      obj = { city := entry.1,
              central_hub := { key := "CENTRAL", name := entry.2.1, lat := p.1,
                               lon := p.2, kind := "depot" },
              micro_hubs := [] } := by
  rcases graph_phase1_aux geo cities _ c obj h with h1 | h1
  · cases h1
  · exact h1

lemma graph_phase1_none (geo : GeoFn) (c : String) :
    ∀ (cities : List (String × String × String)) (g : String → Option CityObj),
      (∀ e ∈ cities, e.1 = c → geo e.2.2 = none) → g c = none →
      (cities.foldl
        (fun g entry =>
          match geo entry.2.2 with
          | none => g
          | some p =>
            fun c =>
              if c = entry.1 then
                some { city := entry.1,
                       central_hub := { key := "CENTRAL", name := entry.2.1, lat := p.1,
                                        lon := p.2, kind := "depot" },
                       micro_hubs := [] }
              else g c) g) c = none := by
  intro cities
  induction cities with
  | nil => intro g _ hg; exact hg
  | cons e es ih =>
    intro g hall hg
    simp only [List.foldl_cons]
    refine ih _ (fun x hx hxc => hall x (List.mem_cons_of_mem _ hx) hxc) ?_
    cases hge : geo e.2.2 with
    | none => exact hg
    | some p =>
      dsimp only
      by_cases hc : c = e.1
      · exact absurd (hall e (List.mem_cons_self _ _) hc.symm) (by rw [hge]; simp)
      · rw [if_neg hc]
        exact hg

lemma micro_hubs_for_mem {geo : GeoFn} {rows : List (String × String × String × String)}
    {c : String} {n : Node} (h : n ∈ micro_hubs_for geo rows c) :
    ∃ r ∈ rows, r.1 = c ∧ geo r.2.2.2 = some (n.lat, n.lon) ∧
      n = { key := r.2.1, name := r.2.2.1, lat := n.lat, lon := n.lon, kind := "hub" } := by
  unfold micro_hubs_for at h
  obtain ⟨r, hr, hf⟩ := List.mem_filterMap.mp h
  have hr2 := List.take_subset _ _ hr
  obtain ⟨hrows, hc⟩ := List.mem_filter.mp hr2
  cases hg : geo r.2.2.2 with
  | none => rw [hg] at hf; cases hf
  | some p =>
    rw [hg] at hf
    obtain rfl := (Option.some.inj hf)
    exact ⟨r, hrows, beq_iff_eq.mp hc, by rw [hg], rfl⟩

/-- C9: every city in the graph built by `build_city_graph` has a geocoded
central hub, and a non-empty micro-hub list of at most ten geocoded hubs; a
city whose central-hub address does not geocode, or whose first ten micro-hub
rows all fail to geocode, is absent from the graph. -/
theorem spec_C9 (geo : GeoFn) (cities : List (String × String × String))
    (rows : List (String × String × String × String)) (c : String) :
    (∀ co, build_city_graph geo cities rows c = some co →
      (∃ entry ∈ cities, entry.1 = c ∧ ∃ p, geo entry.2.2 = some p ∧
        co.central_hub = { key := "CENTRAL", name := entry.2.1, lat := p.1, lon := p.2,
                           kind := "depot" }) ∧
      co.micro_hubs ≠ [] ∧ co.micro_hubs.length ≤ 10 ∧
      (∀ n ∈ co.micro_hubs, ∃ r ∈ rows, r.1 = c ∧ geo r.2.2.2 = some (n.lat, n.lon) ∧
        n = { key := r.2.1, name := r.2.2.1, lat := n.lat, lon := n.lon, kind := "hub" })) ∧
    ((∀ e ∈ cities, e.1 = c → geo e.2.2 = none) →
      build_city_graph geo cities rows c = none) ∧
    ((∀ r ∈ (rows.filter fun r => r.1 == c).take 10, geo r.2.2.2 = none) →
      build_city_graph geo cities rows c = none) := by
  refine ⟨?_, ?_, ?_⟩
  · intro co h
    obtain ⟨hmicro, hne, hle⟩ := build_some_micro h
    refine ⟨?_, hne, hle, ?_⟩
    · unfold build_city_graph at h
      cases hp : graph_phase1 geo cities c with
      | none => rw [hp] at h; cases h
      | some obj =>
        rw [hp] at h
        dsimp only at h
        obtain ⟨entry, hmem, hc, p, hgp, hobj⟩ := graph_phase1_spec hp
        cases hE : (micro_hubs_for geo rows c).isEmpty with
        | true => rw [hE] at h; cases h
        | false =>
          rw [hE] at h
          simp only [Bool.false_eq_true, if_false] at h
          obtain rfl := (Option.some.inj h).symm
          refine ⟨entry, hmem, hc, p, hgp, ?_⟩
          rw [hobj]
    · intro n hn
      rw [hmicro] at hn
      exact micro_hubs_for_mem hn
  · intro hall
    have hp : graph_phase1 geo cities c = none := graph_phase1_none geo c cities _ hall rfl
    unfold build_city_graph
    rw [hp]
  · intro hfail
    have hmhs : micro_hubs_for geo rows c = [] := by
      unfold micro_hubs_for
      rw [List.filterMap_eq_nil_iff]
      intro r hr
      rw [hfail r hr]
      rfl
    unfold build_city_graph
    cases hp : graph_phase1 geo cities c with
    | none => rfl
    | some obj =>
      dsimp only
      rw [hmhs]
      rfl

/-- Witness for C9 on a one-city, one-row table whose two addresses geocode. -/
theorem spec_C9_witness :
    hamburgLike.micro_hubs ≠ [] ∧ hamburgLike.micro_hubs.length ≤ 10 :=
  ⟨((spec_C9
      (fun a => if a = "addrC" then some ((53.5 : ℚ), (10.0 : ℚ))
        else if a = "addrM" then some ((53.54 : ℚ), (10.0 : ℚ)) else none)
      [("Hamburg, Germany", "Billbrook Central Warehouse", "addrC")]
      [("Hamburg, Germany", "HH-MH1", "HafenCity", "addrM")]
      "Hamburg, Germany").1 hamburgLike rfl).2.1,
   ((spec_C9
      (fun a => if a = "addrC" then some ((53.5 : ℚ), (10.0 : ℚ))
        else if a = "addrM" then some ((53.54 : ℚ), (10.0 : ℚ)) else none)
      [("Hamburg, Germany", "Billbrook Central Warehouse", "addrC")]
      [("Hamburg, Germany", "HH-MH1", "HafenCity", "addrM")]
      "Hamburg, Germany").1 hamburgLike rfl).2.2.1⟩

/-! ### C10: nearest micro-hub and the baseline transfer point -/

lemma haversine_eq (a b : Point) :
    haversine_km a b = 2 * 6371.0088 * Real.arcsin (Real.sqrt
      (Real.sin ((((b.1 : ℝ) * Real.pi / 180) - ((a.1 : ℝ) * Real.pi / 180)) / 2) ^ 2 +
        Real.cos ((a.1 : ℝ) * Real.pi / 180) * Real.cos ((b.1 : ℝ) * Real.pi / 180) *
          Real.sin ((((b.2 : ℝ) * Real.pi / 180) - ((a.2 : ℝ) * Real.pi / 180)) / 2) ^ 2)) :=
  rfl

/-- The haversine distance is far below the `1e18` sentinel that
`nearest_micro` starts from. -/
lemma haversine_lt_big (a b : Point) : haversine_km a b < 1e18 := by
  rw [haversine_eq]
  have h1 := Real.arcsin_le_pi_div_two
    (Real.sqrt
      (Real.sin ((((b.1 : ℝ) * Real.pi / 180) - ((a.1 : ℝ) * Real.pi / 180)) / 2) ^ 2 +
        Real.cos ((a.1 : ℝ) * Real.pi / 180) * Real.cos ((b.1 : ℝ) * Real.pi / 180) *
          Real.sin ((((b.2 : ℝ) * Real.pi / 180) - ((a.2 : ℝ) * Real.pi / 180)) / 2) ^ 2))
  have hpi : Real.pi < 3.15 := Real.pi_lt_d2
  nlinarith [h1, hpi]

lemma nearest_fold (dest : Point) :
    ∀ (l : List Node) (b : Node),
      ∃ r : Node,
        (l.foldl
          (fun (acc : Option Node × ℝ) h =>
            let d := haversine_km (h.lat, h.lon) dest
            if d < acc.2 then (some h, d) else acc)
          (some b, haversine_km (b.lat, b.lon) dest)) =
            (some r, haversine_km (r.lat, r.lon) dest) ∧
        (r = b ∨ r ∈ l) ∧
        haversine_km (r.lat, r.lon) dest ≤ haversine_km (b.lat, b.lon) dest ∧
        ∀ y ∈ l, haversine_km (r.lat, r.lon) dest ≤ haversine_km (y.lat, y.lon) dest := by
  intro l
  induction l with
  | nil => intro b; exact ⟨b, rfl, Or.inl rfl, le_refl _, by simp⟩
  | cons h t ih =>
    intro b
    simp only [List.foldl_cons]
    by_cases hd : haversine_km (h.lat, h.lon) dest < haversine_km (b.lat, b.lon) dest
    · have hstep :
          (let d := haversine_km (h.lat, h.lon) dest
           if d < (some b, haversine_km (b.lat, b.lon) dest).2 then (some h, d)
           else (some b, haversine_km (b.lat, b.lon) dest)) =
          (some h, haversine_km (h.lat, h.lon) dest) := by
        dsimp only
        rw [if_pos hd]
      rw [hstep]
      obtain ⟨r, heq, hmem, hle, hall⟩ := ih h
      refine ⟨r, heq, ?_, le_trans hle (le_of_lt hd), ?_⟩
      · rcases hmem with rfl | hm
        · exact Or.inr (List.mem_cons_self _ _)
        · exact Or.inr (List.mem_cons_of_mem _ hm)
      · intro y hy
        rcases List.mem_cons.mp hy with rfl | hy2
        · exact hle
        · exact hall y hy2
    · have hstep :
          (let d := haversine_km (h.lat, h.lon) dest
           if d < (some b, haversine_km (b.lat, b.lon) dest).2 then (some h, d)
           else (some b, haversine_km (b.lat, b.lon) dest)) =
          (some b, haversine_km (b.lat, b.lon) dest) := by
        dsimp only
        rw [if_neg hd]
      rw [hstep]
      obtain ⟨r, heq, hmem, hle, hall⟩ := ih b
      refine ⟨r, heq, ?_, hle, ?_⟩
      · rcases hmem with rfl | hm
        · exact Or.inl rfl
        · exact Or.inr (List.mem_cons_of_mem _ hm)
      · intro y hy
        rcases List.mem_cons.mp hy with rfl | hy2
        · exact le_trans hle (not_lt.mp hd)
        · exact hall y hy2

lemma nearest_micro_spec (city_obj : CityObj) (dest : Point)
    (hne : city_obj.micro_hubs ≠ []) :
    ∃ h, nearest_micro city_obj dest = some h ∧ h ∈ city_obj.micro_hubs ∧
      ∀ y ∈ city_obj.micro_hubs,
        haversine_km (h.lat, h.lon) dest ≤ haversine_km (y.lat, y.lon) dest := by
  unfold nearest_micro
  cases hl : city_obj.micro_hubs with
  | nil => exact absurd hl hne
  | cons h0 t =>
    simp only [List.foldl_cons]
    have hlt := haversine_lt_big (h0.lat, h0.lon) dest
    have hstep :
        (let d := haversine_km (h0.lat, h0.lon) dest
         if d < ((none : Option Node), (1e18 : ℝ)).2 then (some h0, d)
         else ((none : Option Node), (1e18 : ℝ))) =
        (some h0, haversine_km (h0.lat, h0.lon) dest) := by
      dsimp only
      rw [if_pos hlt]
    rw [hstep]
    obtain ⟨r, heq, hmem, hle, hall⟩ := nearest_fold dest t h0
    rw [heq]
    refine ⟨r, rfl, ?_, ?_⟩
    · rcases hmem with rfl | hm
      · exact List.mem_cons_self _ _
      · exact List.mem_cons_of_mem _ hm
    · intro y hy
      rcases List.mem_cons.mp hy with rfl | hy2
      · exact hle
      · exact hall y hy2

/-- C10: with `via_hub` and no chosen hub, the baseline routes through the
micro-hub closest (by haversine distance) to the destination: for a city with
a non-empty micro-hub list, `nearest_micro` returns a member of minimal
haversine distance to the destination, `make_baseline` uses it as the
transfer hub (first leg ends there, last leg starts there and ends at the
destination) and returns it as the chosen hub; on an empty micro-hub list
`nearest_micro` returns `None`. -/
theorem spec_C10 (cn : String) (caps : Caps) (city : CityObj) (engine : String)
    (osrm : OsrmFn) (origin dest : Point) (chain0 : List Mode)
    (hcap : CITY_MODE_CAPS.lookup cn = some caps) (hne : city.micro_hubs ≠ []) :
    (∃ h, nearest_micro city dest = some h ∧ h ∈ city.micro_hubs ∧
      (∀ y ∈ city.micro_hubs,
        haversine_km (h.lat, h.lon) dest ≤ haversine_km (y.lat, y.lon) dest) ∧
      ∃ segs totals,
        make_baseline cn city engine osrm origin dest chain0 true none =
          some (segs, totals, some h) ∧
        (∃ s1 rest, segs = s1 :: rest ∧ s1.from_ = "Start" ∧ s1.to_ = h.name) ∧
        (segs.getLast?.map fun s => s.from_) = some h.name ∧
        (segs.getLast?.map fun s => s.to_) = some "Destination") ∧
    (∀ cityE : CityObj, cityE.micro_hubs = [] → nearest_micro cityE dest = none) := by
  constructor
  · obtain ⟨h, hn, hmem, hmin⟩ := nearest_micro_spec city dest hne
    refine ⟨h, hn, hmem, hmin, ?_⟩
    unfold make_baseline
    rw [hcap]
    dsimp only
    simp only [Option.orElse, hn]
    refine ⟨_, _, rfl, ⟨_, _, rfl, rfl, rfl⟩, ?_, ?_⟩
    · rw [show ∀ (s1 s2 : Segment) (m : List Segment),
          s1 :: m ++ [s2] = (s1 :: m) ++ [s2] from fun _ _ _ => rfl,
        List.getLast?_concat]
      rfl
    · rw [show ∀ (s1 s2 : Segment) (m : List Segment),
          s1 :: m ++ [s2] = (s1 :: m) ++ [s2] from fun _ _ _ => rfl,
        List.getLast?_concat]
      rfl
  · intro cityE hE
    unfold nearest_micro
    rw [hE]
    rfl

/-- Witness for C10 on the concrete one-hub Hamburg city object. -/
theorem spec_C10_witness :
    (∃ h, nearest_micro hamburgLike (2, 2) = some h ∧ h ∈ hamburgLike.micro_hubs ∧
      (∀ y ∈ hamburgLike.micro_hubs,
        haversine_km (h.lat, h.lon) (2, 2) ≤ haversine_km (y.lat, y.lon) (2, 2)) ∧
      ∃ segs totals,
        make_baseline "Hamburg, Germany" hamburgLike "Haversine only"
            (fun _ _ _ => none) (0, 0) (2, 2) [Mode.truck] true none =
          some (segs, totals, some h) ∧
        (∃ s1 rest, segs = s1 :: rest ∧ s1.from_ = "Start" ∧ s1.to_ = h.name) ∧
        (segs.getLast?.map fun s => s.from_) = some h.name ∧
        (segs.getLast?.map fun s => s.to_) = some "Destination") ∧
    (∀ cityE : CityObj, cityE.micro_hubs = [] → nearest_micro cityE (2, 2) = none) :=
  spec_C10 "Hamburg, Germany" hamburgCaps hamburgLike "Haversine only"
    (fun _ _ _ => none) (0, 0) (2, 2) [Mode.truck] rfl (by decide)

/-! ### C6: geocoder cache and retry behaviour -/

lemma geocodeLoop_count_le (key : String) (http : HttpFn) (cache : Cache) :
    ∀ (fuel attempt : ℕ), (geocodeLoop key http cache fuel attempt).2.2 ≤ fuel := by
  intro fuel
  induction fuel with
  | zero => intro attempt; exact le_refl 0
  | succ n ih =>
    intro attempt
    unfold geocodeLoop
    cases hr : http attempt with
    | okResult p => exact Nat.succ_le_succ (Nat.zero_le n)
    | okEmpty => exact Nat.succ_le_succ (Nat.zero_le n)
    | netErr => exact Nat.succ_le_succ (ih (attempt + 1))
    | tooMany => exact Nat.succ_le_succ (ih (attempt + 1))
    | okMalformed => exact Nat.succ_le_succ (ih (attempt + 1))
    | httpErr => exact Nat.succ_le_succ (ih (attempt + 1))

lemma geocodeLoop_exhaust (key : String) (http : HttpFn) (cache : Cache) :
    ∀ (fuel attempt : ℕ), (∀ j, j < fuel → isResolved (http (attempt + j)) = false) →
      geocodeLoop key http cache fuel attempt = (none, cacheInsert cache key none, fuel) := by
  intro fuel
  induction fuel with
  | zero => intro attempt _; rfl
  | succ n ih =>
    intro attempt hall
    have h0 : isResolved (http attempt) = false := by
      have := hall 0 (Nat.succ_pos n)
      simpa using this
    have hrec : ∀ j, j < n → isResolved (http (attempt + 1 + j)) = false := by
      intro j hj
      have := hall (j + 1) (Nat.succ_lt_succ hj)
      have harith : attempt + (j + 1) = attempt + 1 + j := by omega
      rwa [harith] at this
    unfold geocodeLoop
    cases hr : http attempt with
    | okResult p => rw [hr] at h0; simp [isResolved] at h0
    | okEmpty => rw [hr] at h0; simp [isResolved] at h0
    | netErr => rw [ih (attempt + 1) hrec]
    | tooMany => rw [ih (attempt + 1) hrec]
    | okMalformed => rw [ih (attempt + 1) hrec]
    | httpErr => rw [ih (attempt + 1) hrec]

/-- C6: `geocode_address` strips its input; an empty stripped key returns
`None` with no request; a cached key (including a cached null) returns the
cached value with no request; a cache miss issues at most four requests and,
when no attempt resolves, returns `None` and caches an explicit null. -/
theorem spec_C6 (cache : Cache) (addr : String) (http : HttpFn) :
    (strip addr = "" → geocode_address cache addr http = (none, cache, 0)) ∧
    (∀ v, strip addr ≠ "" → cacheLookup cache (strip addr) = some v →
      geocode_address cache addr http = (v, cache, 0)) ∧
    (strip addr ≠ "" → cacheLookup cache (strip addr) = none →
      (geocode_address cache addr http).2.2 ≤ 4 ∧
      ((∀ i, i < 4 → isResolved (http i) = false) →
        geocode_address cache addr http = (none, cacheInsert cache (strip addr) none, 4))) := by
  refine ⟨?_, ?_, ?_⟩
  · intro hkey
    unfold geocode_address
    rw [if_pos hkey]
  · intro v hkey hcache
    unfold geocode_address
    rw [if_neg hkey, hcache]
  · intro hkey hcache
    constructor
    · unfold geocode_address
      rw [if_neg hkey, hcache]
      exact geocodeLoop_count_le _ http cache 4 0
    · intro hfail
      unfold geocode_address
      rw [if_neg hkey, hcache]
      exact geocodeLoop_exhaust _ http cache 4 0 (fun j hj => by simpa using hfail j hj)

/-- Witness for C6: a cached address is answered from the cache. -/
theorem spec_C6_witness :
    geocode_address [("a", some ((1 : ℚ), (2 : ℚ)))] " a " (fun _ => HttpResp.netErr) =
      (some ((1 : ℚ), (2 : ℚ)), [("a", some ((1 : ℚ), (2 : ℚ)))], 0) :=
  (spec_C6 [("a", some ((1 : ℚ), (2 : ℚ)))] " a " (fun _ => HttpResp.netErr)).2.1
    (some ((1 : ℚ), (2 : ℚ))) (by decide) (by decide)

/-! ### C7: ESG metrics as per-mode weighted distance sums -/

lemma dictAdd_weight_sum (c : Mode → ℝ) :
    ∀ (agg : List (Mode × ℝ)) (m : Mode) (d : ℝ),
      ((dictAdd agg m d).map fun p => c p.1 * p.2).sum =
        ((agg.map fun p => c p.1 * p.2).sum) + c m * d := by
  intro agg
  induction agg with
  | nil => intro m d; simp [dictAdd]
  | cons kv rest ih =>
    intro m d
    rcases kv with ⟨k, v⟩
    by_cases hk : k = m
    · subst hk
      simp only [dictAdd, eq_self_iff_true, if_true, List.map_cons, List.sum_cons]
      ring
    · simp only [dictAdd, if_neg hk, List.map_cons, List.sum_cons, ih]
      ring

lemma aggregate_weight_sum (c : Mode → ℝ) :
    ∀ (segs : List Segment) (agg : List (Mode × ℝ)),
      ((segs.foldl (fun agg s => dictAdd agg s.mode s.distance_km) agg).map
        fun p => c p.1 * p.2).sum =
      ((agg.map fun p => c p.1 * p.2).sum) +
        ((segs.map fun s => c s.mode * s.distance_km).sum) := by
  intro segs
  induction segs with
  | nil => intro agg; simp
  | cons s rest ih =>
    intro agg
    simp only [List.foldl_cons, List.map_cons, List.sum_cons]
    rw [ih, dictAdd_weight_sum]
    ring

lemma weight_sum_by_mode (c : Mode → ℝ) :
    ∀ segs : List Segment,
      (segs.map fun s => c s.mode * s.distance_km).sum =
        ∑ m : Mode, c m * mode_km segs m := by
  intro segs
  induction segs with
  | nil => simp [mode_km]
  | cons s rest ih =>
    simp only [List.map_cons, List.sum_cons, ih]
    have hmode : ∀ m : Mode, mode_km (s :: rest) m =
        (if s.mode = m then s.distance_km else 0) + mode_km rest m := by
      intro m
      unfold mode_km
      rw [List.filter_cons]
      by_cases h : s.mode = m
      · simp [h]
      · simp [h]
    have hsplit : (∑ m : Mode, c m * mode_km (s :: rest) m) =
        (∑ m : Mode, (if s.mode = m then c m * s.distance_km else 0)) +
          ∑ m : Mode, c m * mode_km rest m := by
      rw [← Finset.sum_add_distrib]
      refine Finset.sum_congr rfl fun m _ => ?_
      rw [hmode m, mul_add, mul_ite, mul_zero]
    rw [hsplit, Finset.sum_ite_eq Finset.univ s.mode fun m => c m * s.distance_km]
    simp

/-- C7: each of the five ESG metrics equals the sum over modes of the fixed
per-km factor times the total distance travelled in that mode, the factor
coming from `MODE_ESG` with the default row for absent modes. -/
theorem spec_C7 (segments : List Segment) :
    (esg_metrics_for_segments segments).fuel_l =
      (∑ m : Mode, (((MODE_ESG.lookup m).getD esgDefault).fuel_l_per_km : ℝ) *
        mode_km segments m) ∧
    (esg_metrics_for_segments segments).kwh =
      (∑ m : Mode, (((MODE_ESG.lookup m).getD esgDefault).electricity_kwh_per_km : ℝ) *
        mode_km segments m) ∧
    (esg_metrics_for_segments segments).road_space_eq_km =
      (∑ m : Mode, (((MODE_ESG.lookup m).getD esgDefault).road_space_eq : ℝ) *
        mode_km segments m) ∧
    (esg_metrics_for_segments segments).noise_index_km =
      (∑ m : Mode, (((MODE_ESG.lookup m).getD esgDefault).noise_idx : ℝ) *
        mode_km segments m) ∧
    (esg_metrics_for_segments segments).safety_risk_km =
      (∑ m : Mode, (((MODE_ESG.lookup m).getD esgDefault).safety_risk : ℝ) *
        mode_km segments m) := by
  unfold esg_metrics_for_segments aggregate_mode_km
  dsimp only
  refine ⟨?_, ?_, ?_, ?_, ?_⟩
  · rw [aggregate_weight_sum
      (fun m => (((MODE_ESG.lookup m).getD esgDefault).fuel_l_per_km : ℝ)) segments [],
      weight_sum_by_mode (fun m => (((MODE_ESG.lookup m).getD esgDefault).fuel_l_per_km : ℝ)) segments]
    simp
  · rw [aggregate_weight_sum
      (fun m => (((MODE_ESG.lookup m).getD esgDefault).electricity_kwh_per_km : ℝ)) segments [],
      weight_sum_by_mode (fun m => (((MODE_ESG.lookup m).getD esgDefault).electricity_kwh_per_km : ℝ)) segments]
    simp
  · rw [aggregate_weight_sum
      (fun m => (((MODE_ESG.lookup m).getD esgDefault).road_space_eq : ℝ)) segments [],
      weight_sum_by_mode (fun m => (((MODE_ESG.lookup m).getD esgDefault).road_space_eq : ℝ)) segments]
    simp
  · rw [aggregate_weight_sum
      (fun m => (((MODE_ESG.lookup m).getD esgDefault).noise_idx : ℝ)) segments [],
      weight_sum_by_mode (fun m => (((MODE_ESG.lookup m).getD esgDefault).noise_idx : ℝ)) segments]
    simp
  · rw [aggregate_weight_sum
      (fun m => (((MODE_ESG.lookup m).getD esgDefault).safety_risk : ℝ)) segments [],
      weight_sum_by_mode (fun m => (((MODE_ESG.lookup m).getD esgDefault).safety_risk : ℝ)) segments]
    simp

/-! ### C8: the cache is the only persistent state, written only by the
geocoder -/

lemma cacheLookup_insert_ne (c : Cache) (key : String) (v : Option Point) (k : String)
    (hk : k ≠ key) : cacheLookup (cacheInsert c key v) k = cacheLookup c k := by
  induction c with
  | nil =>
    simp only [cacheInsert, cacheLookup, List.lookup]
    rw [show (k == key) = false from beq_eq_false_iff_ne.mpr hk]
  | cons kv rest ih =>
    rcases kv with ⟨k0, v0⟩
    by_cases h0 : k0 = key
    · subst h0
      simp only [cacheInsert, if_pos rfl, cacheLookup, List.lookup]
      rw [show (k == k0) = false from beq_eq_false_iff_ne.mpr hk]
    · simp only [cacheInsert, if_neg h0, cacheLookup, List.lookup]
      by_cases hkk : k = k0
      · rw [show (k == k0) = true from beq_iff_eq.mpr hkk]
      · rw [show (k == k0) = false from beq_eq_false_iff_ne.mpr hkk]
        exact ih

lemma geocodeLoop_cache_insert (key : String) (http : HttpFn) (cache : Cache) :
    ∀ (fuel attempt : ℕ),
      ∃ v, (geocodeLoop key http cache fuel attempt).2.1 = cacheInsert cache key v := by
  intro fuel
  induction fuel with
  | zero => intro attempt; exact ⟨none, rfl⟩
  | succ n ih =>
    intro attempt
    unfold geocodeLoop
    cases hr : http attempt with
    | okResult p => exact ⟨some p, rfl⟩
    | okEmpty => exact ⟨none, rfl⟩
    | netErr => exact ih (attempt + 1)
    | tooMany => exact ih (attempt + 1)
    | okMalformed => exact ih (attempt + 1)
    | httpErr => exact ih (attempt + 1)

/-- C8: the state-threaded candidate search, impact calculation, baseline
construction and ESG computation leave the on-disk cache unchanged, and
`geocode_address` changes at most the cache entry of its own stripped key;
the static catalog tables are constants of the embedding and cannot be
written at all. -/
theorem spec_C8 :
    (∀ (disk : Cache) (cn : String) (co : CityObj) (o d : Point) (e : String) (vh : Bool)
      (fh : Option Node) (osrm : OsrmFn),
      (search_best_routesSt cn co o d e vh fh osrm disk).2 = disk) ∧
    (∀ (disk : Cache) (dkm : ℝ) (m : Mode), (impact_for_legSt dkm m disk).2 = disk) ∧
    (∀ (disk : Cache) (cn : String) (city : CityObj) (e : String) (osrm : OsrmFn)
      (o d : Point) (chain0 : List Mode) (vh : Bool) (ho : Option Node),
      (make_baselineSt cn city e osrm o d chain0 vh ho disk).2 = disk) ∧
    (∀ (disk : Cache) (segs : List Segment), (esg_metrics_for_segmentsSt segs disk).2 = disk) ∧
    (∀ (cache : Cache) (addr : String) (http : HttpFn) (k : String), k ≠ strip addr →
      cacheLookup (geocode_address cache addr http).2.1 k = cacheLookup cache k) := by
  refine ⟨fun _ _ _ _ _ _ _ _ _ => rfl, fun _ _ _ => rfl, fun _ _ _ _ _ _ _ _ _ _ => rfl,
    fun _ _ => rfl, ?_⟩
  intro cache addr http k hk
  unfold geocode_address
  by_cases hkey : strip addr = ""
  · rw [if_pos hkey]
  · rw [if_neg hkey]
    cases hc : cacheLookup cache (strip addr) with
    | some v => rfl
    | none =>
      dsimp only
      obtain ⟨v, hv⟩ := geocodeLoop_cache_insert (strip addr) http cache 4 0
      rw [hv]
      exact cacheLookup_insert_ne cache (strip addr) v k hk

/-- Witness for C8: a failed geocoding of "b" leaves the entry of "a"
untouched. -/
theorem spec_C8_witness :
    cacheLookup (geocode_address [("a", some ((1 : ℚ), (2 : ℚ)))] "b"
      (fun _ => HttpResp.netErr)).2.1 "a" =
      cacheLookup [("a", some ((1 : ℚ), (2 : ℚ)))] "a" :=
  spec_C8.2.2.2.2 [("a", some ((1 : ℚ), (2 : ℚ)))] "b" (fun _ => HttpResp.netErr) "a"
    (by decide)

end GMIS
